import Mathlib

/-!
# Verification of the opendraw drawing-interaction engine

A shallow embedding, in Lean 4, of the core of the `opendraw` whiteboard:
the shape data model (`src/types/index.ts`), the geometry kernel and
coordinate pipeline (`src/lib/canvasUtils.ts`), shape creation
(`src/lib/create-shape.ts`), position resolution (`src/lib/get-position.ts`),
the eraser hit tests (`src/lib/eraser.ts`), the drawing store
(`src/store/drawingStore.ts` / `uiStore.ts`) and the pointer-event state
machine (`src/hooks/canvas/useCanvasEvents.ts` — `handleMouseDown`,
`handleMouseMove`, `handleMouseUp`).

Modelling conventions:
* JavaScript numbers are modelled by `ℚ`, except that the Euclidean
  distances computed with `Math.sqrt` are modelled exactly in `ℝ` via
  `Real.sqrt` (those predicates are the only noncomputable definitions).
* JavaScript objects stored in the zustand store are modelled by the value
  structure `ShapeV`; where reference identity matters (the history keeps
  references to the very arrays/objects that make up the live collection)
  an explicit heap is used: a shape reference is an index into an
  allocation arena, see `Sess` below.
* `undefined`/optional fields are modelled with `Option`; the JavaScript
  `||` fallback on possibly-falsy values is modelled by helpers that treat
  `0` and `""` as falsy, exactly as the engine does.
* Division by zero in `ℚ` yields `0` in Lean whereas it yields
  `Infinity`/`NaN` in JavaScript; none of the verified statements depends
  on a division-by-zero case.
-/

namespace OpenDraw

/-- The `Tools` union from `src/types/index.ts`. -/
inductive Tools where
  | pencil | hand | eraser | selection | text | rectangle | triangle
  | line | arrow | circle | diamond | pan | lock | undoT | redoT
deriving DecidableEq, Repr

/-- The `Actions` union from `src/types/index.ts`. -/
inductive Action where
  | drawing | selecting | moving | panning | writing | resizing
  | zooming | erasing | grouping | none
deriving DecidableEq, Repr

/-- A `{x, y}` point. -/
structure Pt where
  x : ℚ
  y : ℚ
deriving DecidableEq, Repr

/-- Model of the opaque rough.js `Drawable` handle owned by a shape: it is
identified with the geometric arguments of the generator call that produced
it in `create-shape.ts` (the style options are derived from the shape's own
fields).  The circle radius is the real number
`Math.sqrt((x2-x1)^2+(y2-y1)^2)/2`. -/
inductive RoughDesc where
  | lineD (x1 y1 x2 y2 : ℚ)
  | rectangleD (x y w h : ℚ)
  | circleD (cx cy : ℚ) (r : ℝ)
  | polygonD (pts : List Pt)

/-- The `Shape` record from `src/types/index.ts` (value view; the transient
selection-only fields `offsetX`/`offsetY`/`xOffsets`/`yOffsets`/`position`
live in `Selected` below). -/
structure ShapeV where
  id : ℤ
  x1 : ℚ
  y1 : ℚ
  x2 : ℚ
  y2 : ℚ
  type : Tools
  strokeColor : String
  fillColor : String
  strokeWidth : ℚ
  zIndex : Option ℤ
  groupId : Option String
  isGrouped : Bool
  points : Option (List Pt)
  text : Option String
  roughShape : Option RoughDesc

/-- The `Group` record from `src/types/index.ts`. -/
structure GroupV where
  id : String
  shapeIds : List ℤ
  x1 : ℚ
  y1 : ℚ
  x2 : ℚ
  y2 : ℚ
  created : ℤ

/-- `s.zIndex || 0`, as used throughout the store and the resolvers. -/
def zOf (s : ShapeV) : ℤ := s.zIndex.getD 0

/-- JavaScript `a || b` on strings (`""` is falsy). -/
def strOr (a b : String) : String := if a = "" then b else a

/-- JavaScript `a || b` on numbers (`0` is falsy). -/
def numOr (a b : ℚ) : ℚ := if a = 0 then b else a

/-- JavaScript `o?.zIndex || d` on an optional shape's `zIndex`
(`0` is falsy, as is `undefined`). -/
def zIdxOr (o : Option ℤ) (d : ℤ) : ℤ :=
  match o with
  | some z => if z = 0 then d else z
  | Option.none => d

-- ===== COORDINATE TRANSFORMATION UTILITIES (canvasUtils.ts) =====

/-- `getMouseCoordinates` (canvasUtils.ts): screen → canvas transform. -/
def getMouseCoordinates (clientX clientY : ℚ) (panOffset : Pt) (scale : ℚ)
    (scaleOffset : Pt) : Pt :=
  ⟨(clientX - panOffset.x * scale + scaleOffset.x) / scale,
   (clientY - panOffset.y * scale + scaleOffset.y) / scale⟩

/-- `calculateScaleOffset` (canvasUtils.ts). -/
def calculateScaleOffset (canvasWidth canvasHeight scale : ℚ) : Pt :=
  ⟨(canvasWidth * scale - canvasWidth) / 2,
   (canvasHeight * scale - canvasHeight) / 2⟩

/-- The canvas → screen transform applied by the renderer
(`setupCanvasContext`, canvasUtils.ts):
`ctx.translate(panOffset*scale - scaleOffset); ctx.scale(scale)` maps a
canvas point `p` to the screen point `p*scale + panOffset*scale - scaleOffset`. -/
def canvasToScreen (p : Pt) (panOffset : Pt) (scale : ℚ) (scaleOffset : Pt) : Pt :=
  ⟨p.x * scale + panOffset.x * scale - scaleOffset.x,
   p.y * scale + panOffset.y * scale - scaleOffset.y⟩

-- ===== SHAPE COORDINATE UTILITIES (canvasUtils.ts) =====

/-- A `{x1, y1, x2, y2}` record. -/
structure Coords where
  x1 : ℚ
  y1 : ℚ
  x2 : ℚ
  y2 : ℚ
deriving DecidableEq, Repr

/-- `adjustShapeCoordinates` (canvasUtils.ts). -/
def adjustShapeCoordinates (shape : ShapeV) : Coords :=
  if shape.type = Tools.rectangle then
    ⟨min shape.x1 shape.x2, min shape.y1 shape.y2,
     max shape.x1 shape.x2, max shape.y1 shape.y2⟩
  else
    if shape.x1 < shape.x2 ∨ (shape.x1 = shape.x2 ∧ shape.y1 < shape.y2) then
      ⟨shape.x1, shape.y1, shape.x2, shape.y2⟩
    else
      ⟨shape.x2, shape.y2, shape.x1, shape.y1⟩

/-- `requiresCoordinateAdjustment` (canvasUtils.ts). -/
def requiresCoordinateAdjustment (type : Tools) : Bool :=
  type = Tools.rectangle || type = Tools.line

/-- `calculateResizedCoordinates` (canvasUtils.ts); positions are the
strings produced by the position resolver, unrecognized positions fall
through to the unchanged coordinates. -/
def calculateResizedCoordinates (clientX clientY : ℚ) (position : String)
    (coordinates : Coords) : Coords :=
  if position = "start" ∨ position = "topLeft" then
    ⟨clientX, clientY, coordinates.x2, coordinates.y2⟩
  else if position = "topRight" then
    ⟨coordinates.x1, clientY, clientX, coordinates.y2⟩
  else if position = "bottomLeft" then
    ⟨clientX, coordinates.y1, coordinates.x2, clientY⟩
  else if position = "end" ∨ position = "bottomRight" then
    ⟨coordinates.x1, coordinates.y1, clientX, clientY⟩
  else coordinates

-- ===== DISTANCE AND PROXIMITY UTILITIES (canvasUtils.ts) =====

/-- `calculateDistance` (canvasUtils.ts), the Euclidean distance. -/
noncomputable def calculateDistance (a b : Pt) : ℝ :=
  Real.sqrt (((a.x : ℝ) - b.x) ^ 2 + ((a.y : ℝ) - b.y) ^ 2)

/-- `isPointNear` (canvasUtils.ts); the source returns `name`/`"near"` or
`null`, and every caller uses the result only for its truthiness, so it is
modelled as a `Bool`. -/
def isPointNear (x y targetX targetY tolerance : ℚ) : Bool :=
  |x - targetX| < tolerance ∧ |y - targetY| < tolerance

/-- `isPointOnLine` (canvasUtils.ts): triangle-inequality slack test. -/
noncomputable def isPointOnLine (x1 y1 x2 y2 px py : ℚ) (tolerance : ℚ) : Prop :=
  |calculateDistance ⟨x1, y1⟩ ⟨x2, y2⟩ -
    (calculateDistance ⟨x1, y1⟩ ⟨px, py⟩ + calculateDistance ⟨x2, y2⟩ ⟨px, py⟩)|
    < (tolerance : ℝ)

-- ===== SHAPE INTERSECTION UTILITIES (canvasUtils.ts) =====

/-- `isPointInRectangle` (canvasUtils.ts). -/
def isPointInRectangle (px py x1 y1 x2 y2 : ℚ) (tolerance : ℚ) : Bool :=
  let minX := min x1 x2 - tolerance
  let maxX := max x1 x2 + tolerance
  let minY := min y1 y2 - tolerance
  let maxY := max y1 y2 + tolerance
  minX ≤ px ∧ px ≤ maxX ∧ minY ≤ py ∧ py ≤ maxY

/-- `isPointInCircle` (canvasUtils.ts): normalized ellipse test. -/
def isPointInCircle (px py x1 y1 x2 y2 : ℚ) (tolerance : ℚ) : Bool :=
  let centerX := (x1 + x2) / 2
  let centerY := (y1 + y2) / 2
  let radiusX := |x2 - x1| / 2
  let radiusY := |y2 - y1| / 2
  let dx := px - centerX
  let dy := py - centerY
  dx * dx / ((radiusX + tolerance) * (radiusX + tolerance)) +
    dy * dy / ((radiusY + tolerance) * (radiusY + tolerance)) ≤ 1

/-- `isPointNearLine` (canvasUtils.ts): clamped projection onto the
segment, then a Euclidean distance comparison. -/
noncomputable def isPointNearLine (px py x1 y1 x2 y2 : ℚ) (tolerance : ℚ) : Prop :=
  let A := px - x1
  let B := py - y1
  let C := x2 - x1
  let D := y2 - y1
  let lenSq := C * C + D * D
  if lenSq = 0 then
    Real.sqrt ((A : ℝ) * A + (B : ℝ) * B) ≤ (tolerance : ℝ)
  else
    let param := (A * C + B * D) / lenSq
    let xx := if param < 0 then x1 else if param > 1 then x2 else x1 + param * C
    let yy := if param < 0 then y1 else if param > 1 then y2 else y1 + param * D
    Real.sqrt (((px : ℝ) - xx) ^ 2 + ((py : ℝ) - yy) ^ 2) ≤ (tolerance : ℝ)

/-- `isPointInTriangle` (canvasUtils.ts): barycentric test, degenerate
denominator treated as outside. -/
def isPointInTriangle (px py x1 y1 x2 y2 x3 y3 : ℚ) : Bool :=
  let denominator := (y2 - y3) * (x1 - x3) + (x3 - x2) * (y1 - y3)
  if |denominator| < 1 / 10 ^ 10 then false
  else
    let a := ((y2 - y3) * (px - x3) + (x3 - x2) * (py - y3)) / denominator
    let b := ((y3 - y1) * (px - x3) + (x1 - x3) * (py - y3)) / denominator
    let c := 1 - a - b
    decide (0 ≤ a ∧ 0 ≤ b ∧ 0 ≤ c)

/-- `isPointInDiamond` (canvasUtils.ts): L1 test against half extents. -/
def isPointInDiamond (px py x1 y1 x2 y2 : ℚ) : Bool :=
  let centerX := (x1 + x2) / 2
  let centerY := (y1 + y2) / 2
  let halfWidth := |x2 - x1| / 2
  let halfHeight := |y2 - y1| / 2
  let dx := |px - centerX|
  let dy := |py - centerY|
  dx / halfWidth + dy / halfHeight ≤ 1

-- ===== SHAPE CREATION (create-shape.ts) =====

/-- `calculateCircleProperties` (canvasUtils.ts). -/
noncomputable def calculateCircleProperties (x1 y1 x2 y2 : ℚ) :
    ℚ × ℚ × ℝ :=
  ((x1 + x2) / 2, (y1 + y2) / 2,
   Real.sqrt (((x2 : ℝ) - x1) ^ 2 + ((y2 : ℝ) - y1) ^ 2) / 2)

/-- The destructured argument of `createShape` (create-shape.ts). -/
structure ShapeCfg where
  id : ℤ
  x1 : ℚ
  y1 : ℚ
  x2 : ℚ
  y2 : ℚ
  type : Tools

/-- `createShape` (create-shape.ts).  Each known variant builds its
rough.js drawable; the `default` branch logs and returns a fallback shape
(note: with the given coordinates, a line drawable, and *no* `zIndex`,
`points`, or `text` property). -/
noncomputable def createShape (cfg : ShapeCfg) (strokeColor fillColor : String)
    (strokeWidth : ℚ) (zIndex : ℤ) : ShapeV :=
  match cfg.type with
  | Tools.line =>
      ⟨cfg.id, cfg.x1, cfg.y1, cfg.x2, cfg.y2, cfg.type, strokeColor, fillColor,
       strokeWidth, some zIndex, Option.none, false, Option.none, Option.none,
       some (RoughDesc.lineD cfg.x1 cfg.y1 cfg.x2 cfg.y2)⟩
  | Tools.rectangle =>
      ⟨cfg.id, cfg.x1, cfg.y1, cfg.x2, cfg.y2, cfg.type, strokeColor, fillColor,
       strokeWidth, some zIndex, Option.none, false, Option.none, Option.none,
       some (RoughDesc.rectangleD cfg.x1 cfg.y1 (cfg.x2 - cfg.x1) (cfg.y2 - cfg.y1))⟩
  | Tools.circle =>
      let p := calculateCircleProperties cfg.x1 cfg.y1 cfg.x2 cfg.y2
      ⟨cfg.id, cfg.x1, cfg.y1, cfg.x2, cfg.y2, cfg.type, strokeColor, fillColor,
       strokeWidth, some zIndex, Option.none, false, Option.none, Option.none,
       some (RoughDesc.circleD p.1 p.2.1 p.2.2)⟩
  | Tools.triangle =>
      ⟨cfg.id, cfg.x1, cfg.y1, cfg.x2, cfg.y2, cfg.type, strokeColor, fillColor,
       strokeWidth, some zIndex, Option.none, false, Option.none, Option.none,
       some (RoughDesc.polygonD
        [⟨cfg.x1, cfg.y2⟩, ⟨(cfg.x1 + cfg.x2) / 2, cfg.y1⟩, ⟨cfg.x2, cfg.y2⟩])⟩
  | Tools.diamond =>
      ⟨cfg.id, cfg.x1, cfg.y1, cfg.x2, cfg.y2, cfg.type, strokeColor, fillColor,
       strokeWidth, some zIndex, Option.none, false, Option.none, Option.none,
       some (RoughDesc.polygonD
        [⟨(cfg.x1 + cfg.x2) / 2, cfg.y1⟩, ⟨cfg.x2, (cfg.y1 + cfg.y2) / 2⟩,
         ⟨(cfg.x1 + cfg.x2) / 2, cfg.y2⟩, ⟨cfg.x1, (cfg.y1 + cfg.y2) / 2⟩])⟩
  | Tools.arrow =>
      ⟨cfg.id, cfg.x1, cfg.y1, cfg.x2, cfg.y2, cfg.type, strokeColor, fillColor,
       strokeWidth, some zIndex, Option.none, false, Option.none, Option.none,
       some (RoughDesc.lineD cfg.x1 cfg.y1 cfg.x2 cfg.y2)⟩
  | Tools.pencil =>
      ⟨cfg.id, 0, 0, 0, 0, cfg.type, strokeColor, "transparent",
       strokeWidth, some zIndex, Option.none, false,
       some [⟨cfg.x1, cfg.y1⟩], Option.none, Option.none⟩
  | Tools.text =>
      ⟨cfg.id, cfg.x1, cfg.y1, cfg.x2, cfg.y2, cfg.type, strokeColor, "transparent",
       strokeWidth, some zIndex, Option.none, false, Option.none, some "",
       Option.none⟩
  | _ =>
      ⟨cfg.id, cfg.x1, cfg.y1, cfg.x2, cfg.y2, cfg.type, strokeColor, fillColor,
       strokeWidth, Option.none, Option.none, false, Option.none, Option.none,
       some (RoughDesc.lineD cfg.x1 cfg.y1 cfg.x2 cfg.y2)⟩

/-- The eight known drawable variants of `createShape` (every other member
of `Tools` falls into the `default` branch). -/
def knownShapeKind (t : Tools) : Bool :=
  t = Tools.line || t = Tools.rectangle || t = Tools.circle ||
  t = Tools.triangle || t = Tools.diamond || t = Tools.arrow ||
  t = Tools.pencil || t = Tools.text

-- ===== POSITION RESOLUTION (get-position.ts) =====

/-- The pencil branch of `positionWithinshape`: `shape.points!.some(...)`
over consecutive point pairs (the last point has no successor and
contributes `false`). -/
noncomputable def pencilNearAux (x y : ℚ) : List Pt → Prop
  | p :: q :: rest => isPointOnLine p.x p.y q.x q.y x y 5 ∨ pencilNearAux x y (q :: rest)
  | _ => False

open Classical in
/-- `positionWithinshape` (get-position.ts): the variant-specific part
test.  Handle names and `"inside"` are the literal strings of the source;
`none` models the source's `null`. -/
noncomputable def positionWithinshape (x y : ℚ) (shape : ShapeV) : Option String :=
  match shape.type with
  | Tools.rectangle =>
      if isPointNear x y shape.x1 shape.y1 5 then some "topLeft"
      else if isPointNear x y shape.x2 shape.y1 5 then some "topRight"
      else if isPointNear x y shape.x1 shape.y2 5 then some "bottomLeft"
      else if isPointNear x y shape.x2 shape.y2 5 then some "bottomRight"
      else if isPointInRectangle x y shape.x1 shape.y1 shape.x2 shape.y2 0 then
        some "inside"
      else Option.none
  | Tools.circle =>
      if isPointNear x y shape.x1 shape.y1 5 then some "topLeft"
      else if isPointNear x y shape.x2 shape.y1 5 then some "topRight"
      else if isPointNear x y shape.x1 shape.y2 5 then some "bottomLeft"
      else if isPointNear x y shape.x2 shape.y2 5 then some "bottomRight"
      else if isPointInCircle x y shape.x1 shape.y1 shape.x2 shape.y2 5 then
        some "inside"
      else Option.none
  | Tools.triangle =>
      let triangleTopX := (shape.x1 + shape.x2) / 2
      let triangleTopY := shape.y1
      if isPointNear x y shape.x1 shape.y2 5 then some "bottomLeft"
      else if isPointNear x y shape.x2 shape.y2 5 then some "bottomRight"
      else if isPointNear x y triangleTopX triangleTopY 5 then some "top"
      else if isPointInTriangle x y shape.x1 shape.y2 triangleTopX triangleTopY
          shape.x2 shape.y2 then some "inside"
      else Option.none
  | Tools.diamond =>
      let diamondCenterX := (shape.x1 + shape.x2) / 2
      let diamondCenterY := (shape.y1 + shape.y2) / 2
      if isPointNear x y diamondCenterX shape.y1 5 then some "top"
      else if isPointNear x y shape.x2 diamondCenterY 5 then some "right"
      else if isPointNear x y diamondCenterX shape.y2 5 then some "bottom"
      else if isPointNear x y shape.x1 diamondCenterY 5 then some "left"
      else if isPointInDiamond x y shape.x1 shape.y1 shape.x2 shape.y2 then
        some "inside"
      else Option.none
  | Tools.line =>
      if isPointNear x y shape.x1 shape.y1 5 then some "start"
      else if isPointNear x y shape.x2 shape.y2 5 then some "end"
      else if isPointOnLine shape.x1 shape.y1 shape.x2 shape.y2 x y 1 then
        some "inside"
      else Option.none
  | Tools.arrow =>
      if isPointNear x y shape.x1 shape.y1 5 then some "start"
      else if isPointNear x y shape.x2 shape.y2 5 then some "end"
      else if isPointOnLine shape.x1 shape.y1 shape.x2 shape.y2 x y 1 then
        some "inside"
      else Option.none
  | Tools.text =>
      if isPointInRectangle x y shape.x1 shape.y1 shape.x2 shape.y2 0 then
        some "inside"
      else Option.none
  | Tools.pencil =>
      if pencilNearAux x y (shape.points.getD []) then some "inside"
      else Option.none
  | _ => Option.none

/-- The comparator of `getShapeAtPosition`'s sort,
`(a, b) => (b.zIndex || 0) - (a.zIndex || 0)` read as a `≤`-test: `a`
stays before `b` when the comparator is non-positive. -/
def zDescLE (a b : ShapeV) : Bool := zOf b ≤ zOf a

/-- `getShapeAtPosition` (get-position.ts): stable-sort by `zIndex`
descending (ECMAScript `Array.prototype.sort` is stable), attach each
shape's part, and return the first shape whose part is non-null. -/
noncomputable def getShapeAtPosition (x y : ℚ) (shapes : List ShapeV) :
    Option (ShapeV × Option String) :=
  ((shapes.mergeSort zDescLE).map
      (fun shape => (shape, positionWithinshape x y shape))).find?
    (fun p => p.2.isSome)

-- ===== ERASER HIT TESTS (eraser.ts) =====

namespace Eraser

/-- Module-local `isPointInRectangle` (eraser.ts). -/
def isPointInRectangle (px py x1 y1 x2 y2 tolerance : ℚ) : Bool :=
  let minX := min x1 x2 - tolerance
  let maxX := max x1 x2 + tolerance
  let minY := min y1 y2 - tolerance
  let maxY := max y1 y2 + tolerance
  minX ≤ px ∧ px ≤ maxX ∧ minY ≤ py ∧ py ≤ maxY

/-- Module-local `isPointInCircle` (eraser.ts). -/
def isPointInCircle (px py x1 y1 x2 y2 tolerance : ℚ) : Bool :=
  let centerX := (x1 + x2) / 2
  let centerY := (y1 + y2) / 2
  let radiusX := |x2 - x1| / 2
  let radiusY := |y2 - y1| / 2
  let dx := px - centerX
  let dy := py - centerY
  dx * dx / ((radiusX + tolerance) * (radiusX + tolerance)) +
    dy * dy / ((radiusY + tolerance) * (radiusY + tolerance)) ≤ 1

/-- Module-local `isPointNearLine` (eraser.ts). -/
noncomputable def isPointNearLine (px py x1 y1 x2 y2 tolerance : ℚ) : Prop :=
  let A := px - x1
  let B := py - y1
  let C := x2 - x1
  let D := y2 - y1
  let lenSq := C * C + D * D
  if lenSq = 0 then
    Real.sqrt ((A : ℝ) * A + (B : ℝ) * B) ≤ (tolerance : ℝ)
  else
    let param := (A * C + B * D) / lenSq
    let xx := if param < 0 then x1 else if param > 1 then x2 else x1 + param * C
    let yy := if param < 0 then y1 else if param > 1 then y2 else y1 + param * D
    Real.sqrt (((px : ℝ) - xx) ^ 2 + ((py : ℝ) - yy) ^ 2) ≤ (tolerance : ℝ)

/-- `isPointInTriangleArea` (eraser.ts). -/
def isPointInTriangleArea (px py x1 y1 x2 y2 x3 y3 : ℚ) : Bool :=
  let denominator := (y2 - y3) * (x1 - x3) + (x3 - x2) * (y1 - y3)
  if |denominator| < 1 / 10 ^ 10 then false
  else
    let a := ((y2 - y3) * (px - x3) + (x3 - x2) * (py - y3)) / denominator
    let b := ((y3 - y1) * (px - x3) + (x1 - x3) * (py - y3)) / denominator
    let c := 1 - a - b
    decide (0 ≤ a ∧ 0 ≤ b ∧ 0 ≤ c)

/-- Module-local `isPointInTriangle` (eraser.ts): near one of the three
edges, or inside the triangle area. -/
noncomputable def isPointInTriangle (px py x1 y1 x2 y2 tolerance : ℚ) : Prop :=
  let triangleTopX := (x1 + x2) / 2
  let triangleTopY := y1
  isPointNearLine px py x1 y2 triangleTopX triangleTopY tolerance ∨
  isPointNearLine px py triangleTopX triangleTopY x2 y2 tolerance ∨
  isPointNearLine px py x2 y2 x1 y2 tolerance ∨
  isPointInTriangleArea px py x1 y2 triangleTopX triangleTopY x2 y2 = true

/-- Module-local `isPointInDiamond` (eraser.ts). -/
def isPointInDiamond (px py x1 y1 x2 y2 tolerance : ℚ) : Bool :=
  let centerX := (x1 + x2) / 2
  let centerY := (y1 + y2) / 2
  let halfWidth := |x2 - x1| / 2
  let halfHeight := |y2 - y1| / 2
  let dx := |px - centerX|
  let dy := |py - centerY|
  let tolFactor := tolerance / min halfWidth halfHeight
  dx / (halfWidth + tolerance) + dy / (halfHeight + tolerance) ≤ 1 + tolFactor

/-- `isPointNearPencilPath` (eraser.ts). -/
noncomputable def isPointNearPencilPath (px py : ℚ) : List Pt → (tolerance : ℚ) → Prop
  | p :: q :: rest, tol =>
      isPointNearLine px py p.x p.y q.x q.y tol ∨
      isPointNearPencilPath px py (q :: rest) tol
  | _, _ => False

/-- `isPointInTextBounds` (eraser.ts). -/
def isPointInTextBounds (px py x1 y1 x2 y2 tolerance : ℚ) : Bool :=
  isPointInRectangle px py x1 y1 x2 y2 tolerance

end Eraser

open Classical in
/-- `shouldEraseShape` (eraser.ts). -/
noncomputable def shouldEraseShape (x y : ℚ) (shape : ShapeV) (eraserSize : ℚ) : Prop :=
  match shape.type with
  | Tools.rectangle =>
      Eraser.isPointInRectangle x y shape.x1 shape.y1 shape.x2 shape.y2 eraserSize = true
  | Tools.circle =>
      Eraser.isPointInCircle x y shape.x1 shape.y1 shape.x2 shape.y2 eraserSize = true
  | Tools.line =>
      Eraser.isPointNearLine x y shape.x1 shape.y1 shape.x2 shape.y2 eraserSize
  | Tools.arrow =>
      Eraser.isPointNearLine x y shape.x1 shape.y1 shape.x2 shape.y2 eraserSize
  | Tools.triangle =>
      Eraser.isPointInTriangle x y shape.x1 shape.y1 shape.x2 shape.y2 eraserSize
  | Tools.diamond =>
      Eraser.isPointInDiamond x y shape.x1 shape.y1 shape.x2 shape.y2 eraserSize = true
  | Tools.pencil =>
      Eraser.isPointNearPencilPath x y (shape.points.getD []) eraserSize
  | Tools.text =>
      Eraser.isPointInTextBounds x y shape.x1 shape.y1 shape.x2 shape.y2 eraserSize = true
  | _ => False

open Classical in
/-- `getShapesToErase` (eraser.ts): ids of the shapes to erase — the
topmost (highest `zIndex`, earliest wins ties by `Array.prototype.reduce`)
intersecting shape only. -/
noncomputable def getShapesToErase (x y : ℚ) (shapes : List ShapeV)
    (eraserSize : ℚ) : List ℤ :=
  let intersectingShapes := shapes.filter (fun s => shouldEraseShape x y s eraserSize)
  match intersectingShapes with
  | [] => []
  | h :: t => [(t.foldl (fun topShape currentShape =>
      if zOf currentShape > zOf topShape then currentShape else topShape) h).id]

-- ===== HISTORY STORE (drawingStore / uiStore.ts) =====

/-- The history-commit core of `setShapes` and `duplicateShapes`
(uiStore.ts): `history.slice(0, historyIndex+1)`, push the entry, keep the
last 30 (`slice(-30)`), and clamp the cursor to
`min(newHistory.length - 1, 29)`. -/
def pushHistory {α : Type} (history : List α) (historyIndex : ℕ) (entry : α) :
    List α × ℕ :=
  let newHistory := history.take (historyIndex + 1) ++ [entry]
  (newHistory.drop (newHistory.length - 30), min (newHistory.length - 1) 29)

namespace Hist

/-- The `shapes`/`history`/`historyIndex` fields of the drawing store
(uiStore.ts), value view. -/
structure State where
  shapes : List ShapeV
  history : List (List ShapeV)
  historyIndex : ℕ

/-- The store's initial state: `shapes: [], history: [[]], historyIndex: 0`. -/
def initial : State := ⟨[], [[]], 0⟩

/-- `setShapes` (uiStore.ts). -/
def setShapes (st : State) (shapes : List ShapeV) (addToHistory : Bool) : State :=
  if addToHistory then
    let p := pushHistory st.history st.historyIndex shapes
    ⟨shapes, p.1, p.2⟩
  else { st with shapes := shapes }

/-- `undo` (uiStore.ts): no-op at `historyIndex = 0`. -/
def undo (st : State) : State :=
  if st.historyIndex > 0 then
    let newIndex := st.historyIndex - 1
    { st with historyIndex := newIndex, shapes := st.history.getD newIndex [] }
  else st

/-- `redo` (uiStore.ts): no-op at the tip. -/
def redo (st : State) : State :=
  if st.historyIndex < st.history.length - 1 then
    let newIndex := st.historyIndex + 1
    { st with historyIndex := newIndex, shapes := st.history.getD newIndex [] }
  else st

/-- `n` repetitions of `undo`. -/
def undoN : ℕ → State → State
  | 0, st => st
  | n + 1, st => undoN n (undo st)

end Hist

-- ===== SHAPE DUPLICATION (uiStore.ts, duplicateShapes) =====

/-- The mapping of `duplicateShapes` (uiStore.ts) that builds the
duplicated shapes: pencil duplicates get `id = shapes.length + 1`, other
duplicates get `id = maxId + 1 + index`; every duplicate gets
`zIndex = maxZ + 1 + index` and cleared grouping. -/
noncomputable def duplicatedShapesOf (shapes shapesToDuplicate : List ShapeV)
    (offsetX offsetY : ℚ) : List ShapeV :=
  let maxId := (shapes.map (·.id)).foldl max (-1)
  let maxZ := (shapes.map zOf).foldl max 0
  shapesToDuplicate.mapIdx (fun index shape =>
    let newId := maxId + 1 + (index : ℤ)
    let newZIndex := maxZ + 1 + (index : ℤ)
    if shape.type = Tools.pencil ∧ shape.points.isSome then
      { shape with
        id := (shapes.length : ℤ) + 1,
        zIndex := some newZIndex,
        groupId := Option.none,
        isGrouped := false,
        points := some ((shape.points.getD []).map
          (fun point => ⟨point.x + offsetX, point.y + offsetY⟩)) }
    else
      let newX1 := shape.x1 + offsetX
      let newY1 := shape.y1 + offsetY
      let newX2 := shape.x2 + offsetX
      let newY2 := shape.y2 + offsetY
      if shape.type ≠ Tools.text ∧ shape.type ≠ Tools.pencil then
        let recreatedShape := createShape
          ⟨newId, newX1, newY1, newX2, newY2, shape.type⟩
          shape.strokeColor shape.fillColor shape.strokeWidth newZIndex
        { shape with
          id := newId, zIndex := some newZIndex,
          groupId := Option.none, isGrouped := false,
          x1 := newX1, y1 := newY1, x2 := newX2, y2 := newY2,
          roughShape := recreatedShape.roughShape }
      else
        { shape with
          id := newId, zIndex := some newZIndex,
          groupId := Option.none, isGrouped := false,
          x1 := newX1, y1 := newY1, x2 := newX2, y2 := newY2 })

/-- `calculateGroupBounds` (uiStore.ts): `Math.min`/`Math.max` over the
member coordinate extremes (the empty case short-circuits to zeros). -/
def calculateGroupBounds (shapes : List ShapeV) : Coords :=
  match shapes with
  | [] => ⟨0, 0, 0, 0⟩
  | h :: t =>
      ⟨(t.map (fun s => min s.x1 s.x2)).foldl min (min h.x1 h.x2),
       (t.map (fun s => min s.y1 s.y2)).foldl min (min h.y1 h.y2),
       (t.map (fun s => max s.x1 s.x2)).foldl max (max h.x1 h.x2),
       (t.map (fun s => max s.y1 s.y2)).foldl max (max h.y1 h.y2)⟩

-- ===== THE INTERACTION MACHINE (useCanvasEvents.ts + drawingStore) =====

/-- Placeholder for a dereference the running program never performs
(reading a field of `undefined` would throw); its `type` is `selection`,
which no hit test, eraser test, or `createShape` variant matches. -/
def defaultShape : ShapeV :=
  ⟨0, 0, 0, 0, 0, Tools.selection, "", "", 0, Option.none, Option.none, false,
   Option.none, Option.none, Option.none⟩

instance : Inhabited ShapeV := ⟨defaultShape⟩

/-- `Math.min(...)` of a non-empty spread (the empty case would be
`Infinity`; it is unreachable at every call site below). -/
def minList : List ℚ → ℚ
  | [] => 0
  | h :: t => t.foldl min h

namespace Sess

/-- A shape reference: an index into the allocation arena.  JavaScript
arrays hold object references; the history holds the very arrays that were
live at commit time, so two history entries and the live collection can
alias the same shape object. -/
abbrev Ref := ℕ

/-- `heap[r]`, defined (`some`) exactly for allocated references. -/
def deref (heap : List ShapeV) (r : Ref) : Option ShapeV := heap[r]?

/-- `heap[r]` with the unreachable-placeholder default. -/
def getSh (heap : List ShapeV) (r : Ref) : ShapeV := heap.getD r defaultShape

/-- Allocate a fresh object. -/
def alloc (heap : List ShapeV) (v : ShapeV) : List ShapeV × Ref :=
  (heap ++ [v], heap.length)

/-- The transient selection record (`SelectedElementType` in
`src/types/index.ts`): a spread copy of the hit shape plus its resolved
position and the drag offsets recorded on pointer-down. -/
structure Selected where
  shape : ShapeV
  position : Option String
  offsetX : Option ℚ
  offsetY : Option ℚ
  xOffsets : Option (List ℚ)
  yOffsets : Option (List ℚ)

/-- The drawing store plus the handler-local refs of `useCanvasEvents`
(`startPanPosition`).  `selectedShapes` is modelled by value: the engine
only ever reads ids, group ids and geometry from it. -/
structure State where
  heap : List ShapeV
  shapes : List Ref
  history : List (List Ref)
  historyIndex : ℕ
  selectedShape : Option Selected
  selectedShapes : List ShapeV
  tool : Tools
  action : Action
  strokeColor : String
  fillColor : String
  strokeWidth : ℚ
  groups : List GroupV
  scale : ℚ
  panOffset : Pt
  scaleOffset : Pt
  startPanPosition : Pt

/-- The live collection as the list of shape values it currently holds. -/
def liveValues (st : State) : List ShapeV := st.shapes.map (getSh st.heap)

/-- The store's initial state. -/
def initialState : State where
  heap := []
  shapes := []
  history := [[]]
  historyIndex := 0
  selectedShape := Option.none
  selectedShapes := []
  tool := Tools.selection
  action := Action.none
  strokeColor := "#000000"
  fillColor := "transparent"
  strokeWidth := 2
  groups := []
  scale := 1
  panOffset := ⟨0, 0⟩
  scaleOffset := ⟨0, 0⟩
  startPanPosition := ⟨0, 0⟩

/-- `setShapes` (uiStore.ts) acting on the reference-level store. -/
def setShapesR (st : State) (newShapes : List Ref) (addToHistory : Bool) : State :=
  if addToHistory then
    let p := pushHistory st.history st.historyIndex newShapes
    { st with shapes := newShapes, history := p.1, historyIndex := p.2 }
  else { st with shapes := newShapes }

/-- `undo` (uiStore.ts): the restored live collection is the history
entry itself (the same array object). -/
def undoR (st : State) : State :=
  if st.historyIndex > 0 then
    let newIndex := st.historyIndex - 1
    { st with historyIndex := newIndex, shapes := st.history.getD newIndex [] }
  else st

/-- `redo` (uiStore.ts). -/
def redoR (st : State) : State :=
  if st.historyIndex < st.history.length - 1 then
    let newIndex := st.historyIndex + 1
    { st with historyIndex := newIndex, shapes := st.history.getD newIndex [] }
  else st

/-- `deleteShape` (uiStore.ts). -/
def deleteShapeR (st : State) (id : ℤ) : State :=
  { st with shapes := st.shapes.filter (fun r => ¬ (getSh st.heap r).id = id) }

/-- `duplicateShapes` (uiStore.ts): build the duplicates (fresh objects),
append them, select them, and optionally commit to history. -/
noncomputable def duplicateShapesR (st : State) (shapesToDuplicate : List ShapeV)
    (offsetX offsetY : ℚ) (saveToHistory : Bool) : State :=
  let duplicated := duplicatedShapesOf (liveValues st) shapesToDuplicate offsetX offsetY
  let heap' := st.heap ++ duplicated
  let newRefs := List.range' st.heap.length duplicated.length
  let newShapes := st.shapes ++ newRefs
  let sel := duplicated.head?.map
    (fun s => (⟨s, Option.none, Option.none, Option.none, Option.none, Option.none⟩ : Selected))
  if saveToHistory then
    let p := pushHistory st.history st.historyIndex newShapes
    { st with
      heap := heap', shapes := newShapes, history := p.1, historyIndex := p.2,
      selectedShapes := duplicated, selectedShape := sel }
  else
    { st with
      heap := heap', shapes := newShapes,
      selectedShapes := duplicated, selectedShape := sel }

/-- `groupShapes` (uiStore.ts); the random `groupId` and the `Date.now()`
timestamp are external inputs of the model. -/
def groupShapesR (st : State) (shapeIds : List ℤ) (groupId : String)
    (created : ℤ) : State :=
  let res := st.shapes.foldl (fun (acc : List ShapeV × List Ref) r =>
      let s := getSh acc.1 r
      if shapeIds.contains s.id then
        let a := alloc acc.1 { s with groupId := some groupId, isGrouped := true }
        (a.1, acc.2 ++ [a.2])
      else (acc.1, acc.2 ++ [r])) (st.heap, [])
  let groupedShapes := res.2.map (getSh res.1)
  let selectedShapes := groupedShapes.filter (fun s => s.groupId = some groupId)
  let bounds := calculateGroupBounds selectedShapes
  { st with
    heap := res.1, shapes := res.2,
    groups := st.groups ++
      [⟨groupId, shapeIds, bounds.x1, bounds.y1, bounds.x2, bounds.y2, created⟩],
    selectedShapes := selectedShapes, selectedShape := Option.none }

/-- `ungroupShapes` (uiStore.ts). -/
def ungroupShapesR (st : State) (groupId : String) : State :=
  let res := st.shapes.foldl (fun (acc : List ShapeV × List Ref) r =>
      let s := getSh acc.1 r
      if s.groupId = some groupId then
        let a := alloc acc.1 { s with groupId := Option.none, isGrouped := false }
        (a.1, acc.2 ++ [a.2])
      else (acc.1, acc.2 ++ [r])) (st.heap, [])
  { st with
    heap := res.1, shapes := res.2,
    groups := st.groups.filter (fun g => ¬ g.id = groupId),
    selectedShapes := [], selectedShape := Option.none }

-- ----- updateElement (useCanvasEvents.ts) -----

/-- `updateElement` (useCanvasEvents.ts).  `measure` models the external
`canvas.measureText` capability; `none` models a thrown exception (the
callers' stores are unchanged in that case, no store write precedes the
throw).  `shapesCopy[id]` indexes the live array by the passed number; the
pencil branch mutates that object **in place**
(`shapesCopy[id].points = [...existingPoints, {x: x2, y: y2}]`). -/
noncomputable def updateElement (st : State) (measure : String → ℚ) (id : ℤ)
    (x1 y1 x2 y2 : ℚ) (type : Tools) (options : Option String)
    (saveToHistory : Bool) : Option State :=
  let idx := id.toNat
  let existingShape := (st.shapes[idx]?).bind (deref st.heap)
  let maxZ := ((st.shapes.map (fun r => zOf (getSh st.heap r))).foldl max 0)
  let shapeStrokeColor :=
    match existingShape with
    | some s => strOr s.strokeColor st.strokeColor
    | Option.none => st.strokeColor
  let shapeFillColor :=
    match existingShape with
    | some s => strOr s.fillColor st.fillColor
    | Option.none => st.fillColor
  let shapeStrokeWidth :=
    match existingShape with
    | some s => numOr s.strokeWidth st.strokeWidth
    | Option.none => st.strokeWidth
  let shapeZIndex := zIdxOr (existingShape.bind (·.zIndex)) (maxZ + 1)
  match type with
  | Tools.line | Tools.rectangle | Tools.triangle | Tools.circle
  | Tools.diamond | Tools.arrow =>
      let newShape := createShape ⟨id, x1, y1, x2, y2, type⟩
        shapeStrokeColor shapeFillColor shapeStrokeWidth shapeZIndex
      let a := alloc st.heap newShape
      some (setShapesR { st with heap := a.1 } (st.shapes.set idx a.2) saveToHistory)
  | Tools.pencil =>
      match st.shapes[idx]? with
      | Option.none => Option.none
      | some r =>
          let obj := getSh st.heap r
          let existingPoints := obj.points.getD []
          let heap' := st.heap.set r
            { obj with points := some (existingPoints ++ [⟨x2, y2⟩]) }
          some (setShapesR { st with heap := heap' } st.shapes saveToHistory)
  | Tools.text =>
      match options with
      | Option.none => Option.none
      | some txt =>
          let textWidth := measure txt
          let textHeight : ℚ := 24
          let newShape :=
            { createShape ⟨id, x1, y1, x1 + textWidth, y1 + textHeight, type⟩
                shapeStrokeColor shapeFillColor shapeStrokeWidth shapeZIndex with
              text := some txt }
          let a := alloc st.heap newShape
          some (setShapesR { st with heap := a.1 } (st.shapes.set idx a.2) saveToHistory)
  | _ => Option.none

-- ----- handleMouseDown (useCanvasEvents.ts) -----

/-- The `updateUIColorsFromShape` store action (uiStore.ts). -/
def applyUIColors (st : State) (shape : ShapeV) : State :=
  { st with
    strokeColor := strOr shape.strokeColor "#000000",
    fillColor := strOr shape.fillColor "transparent",
    strokeWidth := numOr shape.strokeWidth 2 }

/-- The alt-click duplication branch of `handleMouseDown`. -/
noncomputable def downAltDuplicate (st : State) (shape : ShapeV)
    (clientX clientY : ℚ) : State :=
  let shapesToDuplicate :=
    if shape.isGrouped ∧ shape.groupId.isSome then
      (liveValues st).filter (fun s => s.groupId = shape.groupId)
    else if st.selectedShapes.length > 1 ∧
        st.selectedShapes.any (fun s => s.id = shape.id) then
      st.selectedShapes
    else [shape]
  let minX := minList (shapesToDuplicate.map (fun s => min s.x1 s.x2))
  let minY := minList (shapesToDuplicate.map (fun s => min s.y1 s.y2))
  let offsetX : ℚ := (round ((clientX - minX) / 2) : ℤ)
  let offsetY : ℚ := (round ((clientY - minY) / 2) : ℤ)
  duplicateShapesR st shapesToDuplicate offsetX offsetY true

/-- The selection branch of `handleMouseDown` for a hit shape (non-alt):
record offsets, update the (multi-)selection, commit the pre-gesture
snapshot, and enter `moving`/`resizing`. -/
noncomputable def downSelectHit (st : State) (shape : ShapeV) (pos : Option String)
    (clientX clientY : ℚ) (ctrlKey metaKey : Bool) : State :=
  let base : Selected := ⟨shape, pos, Option.none, Option.none, Option.none, Option.none⟩
  let st1 :=
    if shape.isGrouped ∧ shape.groupId.isSome then
      let groupedShapes := (liveValues st).filter (fun s => s.groupId = shape.groupId)
      let minX := minList (groupedShapes.map (fun s => min s.x1 s.x2))
      let minY := minList (groupedShapes.map (fun s => min s.y1 s.y2))
      let selectedElement :=
        { base with offsetX := some (clientX - minX), offsetY := some (clientY - minY) }
      if ctrlKey ∨ metaKey then
        if st.selectedShapes.any (fun s => s.groupId = shape.groupId) then
          { st with
            selectedShapes :=
              st.selectedShapes.filter (fun s => ¬ s.groupId = shape.groupId),
            selectedShape := Option.none }
        else
          { st with
            selectedShapes := st.selectedShapes ++ groupedShapes,
            selectedShape := some selectedElement }
      else
        applyUIColors
          { st with
            selectedShape := some selectedElement,
            selectedShapes := groupedShapes }
          groupedShapes.headI
    else
      let selectedElement :=
        if shape.type = Tools.pencil ∧ shape.points.isSome then
          let pts := shape.points.getD []
          { base with
            xOffsets := some (pts.map (fun p => clientX - p.x)),
            yOffsets := some (pts.map (fun p => clientY - p.y)) }
        else
          { base with
            offsetX := some (clientX - shape.x1),
            offsetY := some (clientY - shape.y1) }
      if ctrlKey ∨ metaKey then
        if st.selectedShapes.any (fun s => s.id = shape.id) then
          { st with
            selectedShapes :=
              st.selectedShapes.filter (fun s => ¬ s.id = shape.id),
            selectedShape := Option.none }
        else
          applyUIColors
            { st with
              selectedShapes := st.selectedShapes ++ [selectedElement.shape],
              selectedShape := some selectedElement }
            selectedElement.shape
      else
        applyUIColors
          { st with
            selectedShape := some selectedElement,
            selectedShapes := [selectedElement.shape] }
          selectedElement.shape
  let st2 := setShapesR st1 st.shapes true
  { st2 with action := if pos = some "inside" then Action.moving else Action.resizing }

/-- `handleMouseDown` (useCanvasEvents.ts); it never calls
`updateElement`, so it does not need the text-measuring capability. -/
noncomputable def handleMouseDown (st : State)
    (eventX eventY : ℚ) (button : ℕ)
    (altKey ctrlKey metaKey spacePressed : Bool) : State :=
  if st.action = Action.writing then st
  else
    let c := getMouseCoordinates eventX eventY st.panOffset st.scale st.scaleOffset
    let clientX := c.x
    let clientY := c.y
    if st.tool = Tools.pan ∨ button = 1 ∨ spacePressed = true then
      { st with action := Action.panning, startPanPosition := ⟨clientX, clientY⟩ }
    else if st.tool = Tools.selection then
      match getShapeAtPosition clientX clientY (liveValues st) with
      | some sp =>
          if altKey then downAltDuplicate st sp.1 clientX clientY
          else downSelectHit st sp.1 sp.2 clientX clientY ctrlKey metaKey
      | Option.none =>
          if ¬ ctrlKey ∧ ¬ metaKey then
            { st with selectedShape := Option.none, selectedShapes := [] }
          else st
    else if st.tool = Tools.eraser then
      let shapesToErase := getShapesToErase clientX clientY (liveValues st) 20
      let st1 :=
        if shapesToErase.length > 0 then
          setShapesR st
            (st.shapes.filter (fun r => ¬ shapesToErase.contains (getSh st.heap r).id))
            true
        else st
      { st1 with action := Action.erasing }
    else
      let st1 := setShapesR st st.shapes true
      let id : ℤ := (st.shapes.length : ℤ)
      let maxZ := (st.shapes.map (fun r => zOf (getSh st.heap r))).foldl max 0
      let newElement := createShape ⟨id, clientX, clientY, clientX, clientY, st.tool⟩
        st.strokeColor st.fillColor st.strokeWidth (maxZ + 1)
      let a := alloc st1.heap newElement
      let st2 := setShapesR { st1 with heap := a.1 } (st.shapes ++ [a.2]) false
      { st2 with
        selectedShape := some ⟨newElement, Option.none, Option.none, Option.none,
          Option.none, Option.none⟩,
        action := if st.tool = Tools.text then Action.writing else Action.drawing }

-- ----- handleMouseMove (useCanvasEvents.ts) -----

/-- The group-moving branch of `handleMouseMove` (`action === "moving"`
with a grouped selection): translate every member by the same delta,
writing `shapesCopy[groupShape.id]` slots; the `groups` collection is not
touched.  `moveGroupStep` is one iteration of its `forEach` over the
grouped shapes (accumulating heap, slot array and updated selection). -/
noncomputable def moveGroupStep (deltaX deltaY : ℚ)
    (acc : List ShapeV × List Ref × List ShapeV) (groupShape : ShapeV) :
    List ShapeV × List Ref × List ShapeV :=
  let idx := groupShape.id.toNat
  let slotObj :=
    match acc.2.1[idx]? with
    | some r => getSh acc.1 r
    | Option.none => defaultShape
  if groupShape.type = Tools.pencil ∧ groupShape.points.isSome then
    let newPoints := (groupShape.points.getD []).map
      (fun p => (⟨p.x + deltaX, p.y + deltaY⟩ : Pt))
    let a := alloc acc.1 { slotObj with points := some newPoints }
    (a.1, acc.2.1.set idx a.2,
     acc.2.2 ++ [{ groupShape with points := some newPoints }])
  else
    let newX1 := groupShape.x1 + deltaX
    let newY1 := groupShape.y1 + deltaY
    let newX2 := groupShape.x2 + deltaX
    let newY2 := groupShape.y2 + deltaY
    let a := alloc acc.1
      { slotObj with x1 := newX1, y1 := newY1, x2 := newX2, y2 := newY2 }
    (a.1, acc.2.1.set idx a.2,
     acc.2.2 ++
       [{ groupShape with x1 := newX1, y1 := newY1, x2 := newX2, y2 := newY2 }])

noncomputable def moveGroup (st : State) (sel : Selected) (clientX clientY : ℚ) :
    State :=
  let groupedShapes := (liveValues st).filter (fun s => s.groupId = sel.shape.groupId)
  let safeOffsetX := sel.offsetX.getD 0
  let safeOffsetY := sel.offsetY.getD 0
  let minX := minList (groupedShapes.map (fun s => min s.x1 s.x2))
  let minY := minList (groupedShapes.map (fun s => min s.y1 s.y2))
  let deltaX := clientX - safeOffsetX - minX
  let deltaY := clientY - safeOffsetY - minY
  let res := groupedShapes.foldl (moveGroupStep deltaX deltaY)
    (st.heap, st.shapes, [])
  let st1 := setShapesR { st with heap := res.1 } res.2.1 false
  { st1 with selectedShapes := res.2.2 }

/-- The `action === "moving"` branch of `handleMouseMove`. -/
noncomputable def moveMoving (st : State) (measure : String → ℚ) (sel : Selected)
    (clientX clientY : ℚ) : State :=
  if sel.shape.isGrouped ∧ sel.shape.groupId.isSome then
    moveGroup st sel clientX clientY
  else if sel.shape.type = Tools.pencil ∧ sel.shape.points.isSome ∧
      sel.xOffsets.isSome ∧ sel.yOffsets.isSome then
    let newPoints :=
      ((sel.shape.points.getD []).zip
        ((sel.xOffsets.getD []).zip (sel.yOffsets.getD []))).map
        (fun pq => (⟨clientX - pq.2.1, clientY - pq.2.2⟩ : Pt))
    let idx := sel.shape.id.toNat
    let slotObj :=
      match st.shapes[idx]? with
      | some r => getSh st.heap r
      | Option.none => defaultShape
    let a := alloc st.heap { slotObj with points := some newPoints }
    let updatedSelectedShapes := st.selectedShapes.map
      (fun s => if s.id = sel.shape.id then { s with points := some newPoints } else s)
    let st1 := setShapesR { st with heap := a.1 } (st.shapes.set idx a.2) false
    { st1 with selectedShapes := updatedSelectedShapes }
  else
    let safeOffsetX := sel.offsetX.getD 0
    let safeOffsetY := sel.offsetY.getD 0
    let newX1 := clientX - safeOffsetX
    let newY1 := clientY - safeOffsetY
    let newX2 := newX1 + (sel.shape.x2 - sel.shape.x1)
    let newY2 := newY1 + (sel.shape.y2 - sel.shape.y1)
    let options :=
      match sel.shape.text with
      | some txt =>
          if sel.shape.type = Tools.text ∧ ¬ txt = "" then some txt else Option.none
      | Option.none => Option.none
    let updatedSelectedShapes := st.selectedShapes.map
      (fun s =>
        if s.id = sel.shape.id then
          { s with x1 := newX1, y1 := newY1, x2 := newX2, y2 := newY2 }
        else s)
    match updateElement st measure sel.shape.id newX1 newY1 newX2 newY2
        sel.shape.type options false with
    | some st1 => { st1 with selectedShapes := updatedSelectedShapes }
    | Option.none => st

/-- `handleMouseMove` (useCanvasEvents.ts).  The cursor-styling reads for
the selection and eraser tools are pure DOM effects and are omitted. -/
noncomputable def handleMouseMove (st : State) (measure : String → ℚ)
    (eventX eventY : ℚ) : State :=
  let c := getMouseCoordinates eventX eventY st.panOffset st.scale st.scaleOffset
  let clientX := c.x
  let clientY := c.y
  if st.action = Action.panning then
    let deltaX := clientX - st.startPanPosition.x
    let deltaY := clientY - st.startPanPosition.y
    { st with
      panOffset := ⟨st.panOffset.x + deltaX, st.panOffset.y + deltaY⟩,
      startPanPosition := ⟨clientX, clientY⟩ }
  else if st.action = Action.drawing then
    match st.shapes[st.shapes.length - 1]? with
    | Option.none => st
    | some r =>
        let s := getSh st.heap r
        (updateElement st measure ((st.shapes.length - 1 : ℕ) : ℤ) s.x1 s.y1
          clientX clientY st.tool Option.none false).getD st
  else if st.action = Action.erasing then
    let shapesToErase := getShapesToErase clientX clientY (liveValues st) 20
    if shapesToErase.length > 0 then
      setShapesR st
        (st.shapes.filter (fun r => ¬ shapesToErase.contains (getSh st.heap r).id))
        false
    else st
  else
    match st.action, st.selectedShape with
    | Action.moving, some sel => moveMoving st measure sel clientX clientY
    | Action.resizing, some sel =>
        match sel.position with
        | some position =>
            let coordinates : Coords :=
              ⟨sel.shape.x1, sel.shape.y1, sel.shape.x2, sel.shape.y2⟩
            let c' := calculateResizedCoordinates clientX clientY position coordinates
            (updateElement st measure sel.shape.id c'.x1 c'.y1 c'.x2 c'.y2
              sel.shape.type Option.none false).getD st
        | Option.none => st
    | _, _ => st

-- ----- handleMouseUp (useCanvasEvents.ts) -----

/-- The tail of `handleMouseUp` after the selected-shape block: the
`writing` early return, the consolidated history commits (note that they
commit the handler's **captured** `shapes` array), and the reset to
`none`. -/
def mouseUpFinish (st : State) (capturedShapes : List Ref)
    (capturedAction : Action) : State :=
  if capturedAction = Action.writing then st
  else
    let st1 :=
      if capturedAction = Action.erasing then setShapesR st capturedShapes true
      else st
    let st2 :=
      if capturedAction = Action.moving ∨ capturedAction = Action.resizing then
        setShapesR st1 capturedShapes true
      else st1
    { st2 with action := Action.none, selectedShape := Option.none }

/-- `handleMouseUp` (useCanvasEvents.ts). -/
noncomputable def handleMouseUp (st : State) (measure : String → ℚ)
    (eventX eventY : ℚ) : State :=
  let c := getMouseCoordinates eventX eventY st.panOffset st.scale st.scaleOffset
  let clientX := c.x
  let clientY := c.y
  match st.selectedShape with
  | some sel =>
      match st.shapes[sel.shape.id.toNat]? with
      | Option.none => st
      | some r =>
          let target := getSh st.heap r
          let st1 :=
            if (st.action = Action.drawing ∨ st.action = Action.resizing) ∧
                requiresCoordinateAdjustment target.type then
              let a := adjustShapeCoordinates target
              (updateElement st measure target.id a.x1 a.y1 a.x2 a.y2 target.type
                Option.none false).getD st
            else st
          let offsetX := sel.offsetX.getD 0
          let offsetY := sel.offsetY.getD 0
          if sel.shape.type = Tools.text ∧ clientX - offsetX = sel.shape.x1 ∧
              clientY - offsetY = sel.shape.y1 then
            { st1 with action := Action.writing }
          else mouseUpFinish st1 st.shapes st.action
  | Option.none => mouseUpFinish st st.shapes st.action

-- ----- keyboard-shortcut store operations (useKeyboardShortcuts) -----

/-- The `Delete`/`Backspace` shortcut: delete every selected shape, then
clear the selection. -/
def deleteSelectedKey (st : State) : State :=
  if st.selectedShapes.length > 0 then
    { (st.selectedShapes.foldl (fun s sh => deleteShapeR s sh.id) st) with
      selectedShapes := [] }
  else st

/-- The `Ctrl+D` shortcut: duplicate the selection with offset `(20, 20)`
and commit. -/
noncomputable def duplicateSelectedKey (st : State) : State :=
  if st.selectedShapes.length > 0 then
    duplicateShapesR st st.selectedShapes 20 20 true
  else st

/-- The `Ctrl+G` shortcut (requires at least two selected shapes). -/
def groupSelectedKey (st : State) (groupId : String) (created : ℤ) : State :=
  if st.selectedShapes.length ≥ 2 then
    groupShapesR st (st.selectedShapes.map (·.id)) groupId created
  else st

/-- The `Ctrl+Shift+G` shortcut. -/
def ungroupSelectedKey (st : State) : State :=
  if st.selectedShapes.length > 0 then
    match st.selectedShapes.headI.groupId with
    | some groupId => ungroupShapesR st groupId
    | Option.none => st
  else st

/-- One user-level event: a pointer event on the canvas or one of the
store-level keyboard operations. -/
inductive Ev where
  | mouseDown (x y : ℚ) (button : ℕ) (altKey ctrlKey metaKey spacePressed : Bool)
  | mouseMove (x y : ℚ)
  | mouseUp (x y : ℚ)
  | undoKey
  | redoKey
  | deleteKey
  | duplicateKey
  | groupKey (groupId : String) (created : ℤ)
  | ungroupKey
  | selectTool (t : Tools)
deriving DecidableEq

/-- The machine's transition function. -/
noncomputable def stepEv (measure : String → ℚ) (st : State) : Ev → State
  | Ev.mouseDown x y b alt ctrl meta space =>
      handleMouseDown st x y b alt ctrl meta space
  | Ev.mouseMove x y => handleMouseMove st measure x y
  | Ev.mouseUp x y => handleMouseUp st measure x y
  | Ev.undoKey => undoR st
  | Ev.redoKey => redoR st
  | Ev.deleteKey => deleteSelectedKey st
  | Ev.duplicateKey => duplicateSelectedKey st
  | Ev.groupKey gid created => groupSelectedKey st gid created
  | Ev.ungroupKey => ungroupSelectedKey st
  | Ev.selectTool t => { st with tool := t }

/-- Run a list of events. -/
noncomputable def run (measure : String → ℚ) : State → List Ev → State
  | st, [] => st
  | st, e :: es => run measure (stepEv measure st e) es

end Sess

-- ===== SAMPLE SHAPES SHARED BY CONCRETE STATEMENTS =====

/-- A pencil shape as created by pointer-down at `(q, q)` with id `i`. -/
noncomputable def samplePencil (i : ℤ) (q : ℚ) : ShapeV :=
  createShape ⟨i, q, q, q, q, Tools.pencil⟩ "#000000" "transparent" 2 (i + 1)

/-- A rectangle shape with corners `(a, b)`-`(c, d)`, id `i`, z-index `z`. -/
noncomputable def sampleRect (i : ℤ) (a b c d : ℚ) (z : ℤ) : ShapeV :=
  createShape ⟨i, a, b, c, d, Tools.rectangle⟩ "#000000" "transparent" 2 z

-- ===== C5: the screen/canvas transform round trip =====

/-- C5: the screen-to-canvas transform computes
`cx = (pointerX - panOffset.x*scale + scaleOffset.x) / scale` (symmetric
for y), the scale offset is `((w*scale - w)/2, (h*scale - h)/2)`, and for
every pointer point, every scale in `[0.1, 20]` and every pan offset the
canvas-to-screen transform of `setupCanvasContext` inverts it exactly. -/
theorem screenToCanvas_round_trip (px py : ℚ) (panOffset : Pt) (scale : ℚ)
    (viewportWidth viewportHeight : ℚ) (scaleOffset : Pt)
    (hlo : 1 / 10 ≤ scale) (hhi : scale ≤ 20) :
    getMouseCoordinates px py panOffset scale scaleOffset =
      ⟨(px - panOffset.x * scale + scaleOffset.x) / scale,
       (py - panOffset.y * scale + scaleOffset.y) / scale⟩ ∧
    calculateScaleOffset viewportWidth viewportHeight scale =
      ⟨(viewportWidth * scale - viewportWidth) / 2,
       (viewportHeight * scale - viewportHeight) / 2⟩ ∧
    canvasToScreen (getMouseCoordinates px py panOffset scale scaleOffset)
        panOffset scale scaleOffset = ⟨px, py⟩ := by
  have hs : scale ≠ 0 := by positivity
  refine ⟨rfl, rfl, ?_⟩
  simp only [getMouseCoordinates, canvasToScreen, Pt.mk.injEq]
  constructor <;> (field_simp; ring)

/-- Witness for `screenToCanvas_round_trip` at pointer `(3, 4)`,
pan `(1, 2)`, scale `2`, viewport `800×600`. -/
theorem screenToCanvas_round_trip_witness :
    (1 / 10 ≤ (2 : ℚ) ∧ (2 : ℚ) ≤ 20) ∧
    canvasToScreen (getMouseCoordinates 3 4 ⟨1, 2⟩ 2 (calculateScaleOffset 800 600 2))
      ⟨1, 2⟩ 2 (calculateScaleOffset 800 600 2) = ⟨3, 4⟩ :=
  ⟨⟨by norm_num, by norm_num⟩,
   (screenToCanvas_round_trip 3 4 ⟨1, 2⟩ 2 800 600 (calculateScaleOffset 800 600 2)
     (by norm_num) (by norm_num)).2.2⟩

-- ===== C9: createShape on an unknown kind =====

/-- The error taxonomy entry the specification prescribes for an unknown
shape kind. -/
inductive ShapeError where
  | unsupportedShapeKind
deriving DecidableEq, Repr

/-- Modelled from the spec: `createShape(kind, bounds, style) -> Shape`
"builds variant-specific defaults; unknown kind fails with an
`UnsupportedShapeKind` error rather than silently degrading".  This
spec-side contract is compared against the source's `createShape`. -/
noncomputable def createShapeSpec (cfg : ShapeCfg) (strokeColor fillColor : String)
    (strokeWidth : ℚ) (zIndex : ℤ) : Except ShapeError ShapeV :=
  if knownShapeKind cfg.type then
    Except.ok (createShape cfg strokeColor fillColor strokeWidth zIndex)
  else Except.error ShapeError.unsupportedShapeKind

/-- C9 counterexample: for the unknown kind `pan`, the spec demands an
`UnsupportedShapeKind` failure, but the source's `createShape` silently
returns a fallback shape (the `default` branch: given coordinates, a line
drawable, and no `zIndex`). -/
theorem createShape_unknown_kind_no_failure :
    createShapeSpec ⟨7, 1, 2, 3, 4, Tools.pan⟩ "#000000" "transparent" 2 5 =
      Except.error ShapeError.unsupportedShapeKind ∧
    createShape ⟨7, 1, 2, 3, 4, Tools.pan⟩ "#000000" "transparent" 2 5 =
      ⟨7, 1, 2, 3, 4, Tools.pan, "#000000", "transparent", 2, Option.none,
       Option.none, false, Option.none, Option.none,
       some (RoughDesc.lineD 1 2 3 4)⟩ :=
  ⟨rfl, rfl⟩

/-- C9 (amended): for every input whose kind is not one of the known shape
variants, `createShape` does not fail: it returns the deterministic
fallback shape — the given id, coordinates and style, a line drawable, and
no `zIndex`/`points`/`text`/grouping.  `createShape` is a pure function,
so the shape collection is unchanged by the call itself. -/
theorem createShape_unknown_kind_fallback (cfg : ShapeCfg) (sc fc : String)
    (sw : ℚ) (z : ℤ) (h : knownShapeKind cfg.type = false) :
    createShape cfg sc fc sw z =
      ⟨cfg.id, cfg.x1, cfg.y1, cfg.x2, cfg.y2, cfg.type, sc, fc, sw,
       Option.none, Option.none, false, Option.none, Option.none,
       some (RoughDesc.lineD cfg.x1 cfg.y1 cfg.x2 cfg.y2)⟩ := by
  obtain ⟨i, a, b, c, d, t⟩ := cfg
  cases t <;> first
    | rfl
    | simp [knownShapeKind] at h

/-- Witness for `createShape_unknown_kind_fallback` at kind `lock`. -/
theorem createShape_unknown_kind_fallback_witness :
    knownShapeKind Tools.lock = false ∧
    createShape ⟨3, 5, 6, 7, 8, Tools.lock⟩ "#fff" "transparent" 1 9 =
      ⟨3, 5, 6, 7, 8, Tools.lock, "#fff", "transparent", 1, Option.none,
       Option.none, false, Option.none, Option.none,
       some (RoughDesc.lineD 5 6 7 8)⟩ :=
  ⟨by decide, createShape_unknown_kind_fallback ⟨3, 5, 6, 7, 8, Tools.lock⟩
    "#fff" "transparent" 1 9 (by decide)⟩

-- ===== C1: shape id uniqueness =====

/-- C1 (code bug): duplicating the two pencil shapes `id 0` and `id 1` in
one `duplicateShapes` call gives **both** duplicates
`id = shapes.length + 1 = 3` — the resulting collection has two shapes
with the same id, violating the id-uniqueness invariant (the non-pencil
path would have assigned `maxId + 1 + index`, i.e. distinct ids). -/
theorem duplicateShapes_pencil_id_collision :
    ((duplicatedShapesOf [samplePencil 0 1, samplePencil 1 2]
        [samplePencil 0 1, samplePencil 1 2] 20 20).map (·.id) = [3, 3]) ∧
    ¬ ((([samplePencil 0 1, samplePencil 1 2] ++
        duplicatedShapesOf [samplePencil 0 1, samplePencil 1 2]
          [samplePencil 0 1, samplePencil 1 2] 20 20).map (·.id)).Nodup) := by
  constructor
  · rfl
  · intro h
    have : ([0, 1, 3, 3] : List ℤ).Nodup := by
      have e : (([samplePencil 0 1, samplePencil 1 2] ++
          duplicatedShapesOf [samplePencil 0 1, samplePencil 1 2]
            [samplePencil 0 1, samplePencil 1 2] 20 20).map (·.id)) =
          ([0, 1, 3, 3] : List ℤ) := rfl
      exact e ▸ h
    simp at this

-- ===== C3/C4: history manager =====

/-- The last `n` elements of a list (the effect of `slice(-n)`). -/
def lastN {α : Type} (n : ℕ) (l : List α) : List α := l.drop (l.length - n)

theorem lastN_of_le {α : Type} {n : ℕ} {l : List α} (h : l.length ≤ n) :
    lastN n l = l := by
  unfold lastN
  rw [Nat.sub_eq_zero_of_le h, List.drop_zero]

theorem length_lastN {α : Type} (n : ℕ) (l : List α) :
    (lastN n l).length = min n l.length := by
  unfold lastN
  rw [List.length_drop]
  omega

theorem lastN_append_lastN {α : Type} (n : ℕ) (l r : List α) :
    lastN n (lastN n l ++ r) = lastN n (l ++ r) := by
  rcases le_or_lt l.length n with h | h
  · rw [lastN_of_le h]
  · unfold lastN
    have ha : (l.drop (l.length - n)).length = n := by rw [List.length_drop]; omega
    rw [List.drop_append_eq_append_drop, List.drop_append_eq_append_drop,
      List.drop_drop, List.length_append, List.length_append, ha]
    congr 1
    · congr 1
      omega
    · congr 1
      omega
/-- One commit from a well-formed history state: the whole history is
kept (the cursor is at the tip), the new entry is appended, and the
oldest entries beyond 30 are dropped. -/
theorem Hist.setShapes_true_spec (st : Hist.State) (c : List ShapeV)
    (h1 : st.historyIndex = st.history.length - 1)
    (h2 : 1 ≤ st.history.length) :
    (Hist.setShapes st c true).history = lastN 30 (st.history ++ [c]) ∧
    (Hist.setShapes st c true).historyIndex =
      (Hist.setShapes st c true).history.length - 1 ∧
    (Hist.setShapes st c true).shapes = c := by
  have htake : st.history.take (st.historyIndex + 1) = st.history := by
    rw [List.take_of_length_le]
    omega
  refine ⟨?_, ?_, rfl⟩
  · show (pushHistory st.history st.historyIndex c).1 = _
    simp only [pushHistory, htake, lastN]
  · show (pushHistory st.history st.historyIndex c).2 =
      (pushHistory st.history st.historyIndex c).1.length - 1
    simp only [pushHistory, htake, List.length_drop, List.length_append,
      List.length_singleton]
    omega

/-- Folding commits over a well-formed history state: the history becomes
the last 30 entries of the original history extended by every committed
state, the cursor sits at the tip, and the live shapes are the last
committed state. -/
theorem Hist.commit_fold_spec (cs : List (List ShapeV)) :
    ∀ (st : Hist.State), st.historyIndex = st.history.length - 1 →
      1 ≤ st.history.length → st.history.length ≤ 30 →
      (cs.foldl (fun h c => Hist.setShapes h c true) st).history
          = lastN 30 (st.history ++ cs) ∧
      (cs.foldl (fun h c => Hist.setShapes h c true) st).historyIndex
          = (cs.foldl (fun h c => Hist.setShapes h c true) st).history.length - 1 ∧
      (cs.foldl (fun h c => Hist.setShapes h c true) st).shapes
          = cs.getLastD st.shapes := by
  induction cs with
  | nil =>
      intro st h1 h2 h3
      refine ⟨?_, h1, rfl⟩
      rw [List.append_nil, lastN_of_le h3]
      rfl
  | cons c cs ih =>
      intro st h1 h2 h3
      have hs := Hist.setShapes_true_spec st c h1 h2
      have hlen : (Hist.setShapes st c true).history.length
          = min 30 (st.history.length + 1) := by
        rw [hs.1, length_lastN, List.length_append, List.length_singleton]
      have := ih (Hist.setShapes st c true) hs.2.1 (by omega) (by omega)
      simp only [List.foldl_cons]
      refine ⟨?_, this.2.1, ?_⟩
      · rw [this.1, hs.1, lastN_append_lastN, List.append_assoc,
          List.singleton_append]
      · rw [this.2.2, hs.2.2, List.getLastD_cons]

/-- `undoN` walks the cursor down one entry per step while the cursor is
positive, restoring `history[cursor]` each time. -/
theorem Hist.undoN_spec (k : ℕ) :
    ∀ (st : Hist.State), k ≤ st.historyIndex →
      Hist.undoN k st =
        { st with historyIndex := st.historyIndex - k,
                  shapes := if k = 0 then st.shapes
                    else st.history.getD (st.historyIndex - k) [] } := by
  induction k with
  | zero => intro st _; simp [Hist.undoN]
  | succ k ih =>
      rintro ⟨sh, hist, idx⟩ hk
      replace hk : k + 1 ≤ idx := hk
      have hpos : idx > 0 := by omega
      have hu : Hist.undo ⟨sh, hist, idx⟩ =
          ⟨hist.getD (idx - 1) [], hist, idx - 1⟩ := by
        simp [Hist.undo, hpos]
      show Hist.undoN k (Hist.undo ⟨sh, hist, idx⟩) = _
      rw [hu, ih ⟨hist.getD (idx - 1) [], hist, idx - 1⟩
        (show k ≤ idx - 1 by omega)]
      simp only [Hist.State.mk.injEq]
      refine ⟨?_, trivial, by omega⟩
      rcases Nat.eq_zero_or_pos k with rfl | hkpos
      · simp
      · rw [if_neg (Nat.pos_iff_ne_zero.mp hkpos), if_neg (Nat.succ_ne_zero k)]
        congr 1
        omega

/-- `undoN` splits into sequential passes. -/
theorem Hist.undoN_add (a b : ℕ) :
    ∀ st : Hist.State, Hist.undoN (a + b) st = Hist.undoN b (Hist.undoN a st) := by
  induction a with
  | zero =>
      intro st
      rw [Nat.zero_add]
      rfl
  | succ a ih =>
      intro st
      rw [Nat.succ_add]
      show Hist.undoN (a + b) (Hist.undo st)
        = Hist.undoN b (Hist.undoN a (Hist.undo st))
      exact ih _

/-- In-range `getD` values are members of the list. -/
theorem getD_mem_of_lt {α : Type} {l : List α} {n : ℕ} (d : α)
    (h : n < l.length) : l.getD n d ∈ l := by
  induction l generalizing n with
  | nil => simp at h
  | cons a t ih =>
      cases n with
      | zero => simp [List.getD]
      | succ n =>
          simp only [List.getD_cons_succ]
          exact List.mem_cons_of_mem _ (ih (by simpa using h))

/-- `undo` is a no-op at cursor 0, so `undoN` saturates. -/
theorem Hist.undoN_saturates (k : ℕ) (st : Hist.State)
    (h : st.historyIndex = 0) : Hist.undoN k st = st := by
  induction k with
  | zero => rfl
  | succ k ih =>
      show Hist.undoN k (Hist.undo st) = st
      have : Hist.undo st = st := by simp [Hist.undo, h]
      rw [this]
      exact ih

/-- C3: committing truncates after the cursor, appends, advances the
cursor and caps retained entries at 30 (oldest dropped first, cursor
re-clamped): the history length never exceeds 30; after 35 distinct
commits from the initial state the history holds exactly 30 entries, and
repeated undo bottoms out at the oldest retained state — the 6th
committed state, not the true origin: no number of undos ever restores
the original empty collection. -/
theorem history_cap_35_commits (cs : List (List ShapeV))
    (h35 : cs.length = 35) (hne : ([] : List ShapeV) ∉ cs) :
    (∀ cs' : List (List ShapeV),
      (cs'.foldl (fun h c => Hist.setShapes h c true) Hist.initial).history.length
        ≤ 30) ∧
    (cs.foldl (fun h c => Hist.setShapes h c true) Hist.initial).history.length
        = 30 ∧
    (Hist.undoN 29
        (cs.foldl (fun h c => Hist.setShapes h c true) Hist.initial)).shapes
      = cs.getD 5 [] ∧
    (∀ k, (Hist.undoN k
        (cs.foldl (fun h c => Hist.setShapes h c true) Hist.initial)).shapes
      ≠ []) ∧
    (∀ k, 29 ≤ k →
      Hist.undoN k (cs.foldl (fun h c => Hist.setShapes h c true) Hist.initial)
        = Hist.undoN 29
            (cs.foldl (fun h c => Hist.setShapes h c true) Hist.initial)) := by
  have hinit1 : Hist.initial.historyIndex = Hist.initial.history.length - 1 := rfl
  have hinit2 : 1 ≤ Hist.initial.history.length := by simp [Hist.initial]
  have hinit3 : Hist.initial.history.length ≤ 30 := by simp [Hist.initial]
  have hcap : ∀ cs' : List (List ShapeV),
      (cs'.foldl (fun h c => Hist.setShapes h c true) Hist.initial).history.length
        ≤ 30 := by
    intro cs'
    rw [(Hist.commit_fold_spec cs' Hist.initial hinit1 hinit2 hinit3).1,
      length_lastN]
    omega
  have hspec := Hist.commit_fold_spec cs Hist.initial hinit1 hinit2 hinit3
  set f := cs.foldl (fun h c => Hist.setShapes h c true) Hist.initial with hf
  have hcs : cs ≠ [] := by
    intro h
    rw [h] at h35
    simp at h35
  have hhist : f.history = cs.drop 5 := by
    rw [hspec.1]
    show (Hist.initial.history ++ cs).drop
        ((Hist.initial.history ++ cs).length - 30) = _
    have : (Hist.initial.history ++ cs).length - 30 = 6 := by
      simp [Hist.initial, h35]
    rw [this]
    show (([] : List ShapeV) :: cs).drop 6 = _
    rw [List.drop_succ_cons]
  have hlen : f.history.length = 30 := by
    rw [hhist, List.length_drop, h35]
  have hidx : f.historyIndex = 29 := by
    rw [hspec.2.1, hlen]
  have hmem : ∀ e ∈ f.history, e ∈ cs := by
    intro e he
    rw [hhist] at he
    exact List.mem_of_mem_drop he
  have hshapes : f.shapes ∈ cs := by
    rw [hspec.2.2]
    have : cs.getLastD Hist.initial.shapes = cs.getLast hcs := by
      rw [List.getLastD_eq_getLast?, List.getLast?_eq_getLast cs hcs,
        Option.getD_some]
    rw [this]
    exact List.getLast_mem hcs
  have hundo29 := Hist.undoN_spec 29 f (by omega)
  have hget0 : f.history.getD 0 [] = cs.getD 5 [] := by
    rw [hhist]
    show ((cs.drop 5).get? 0).getD [] = (cs.get? 5).getD []
    rw [List.get?_drop]
  have hsat : (Hist.undoN 29 f).historyIndex = 0 := by
    rw [hundo29]
    show f.historyIndex - 29 = 0
    omega
  have hu29 : (Hist.undoN 29 f).shapes = cs.getD 5 [] := by
    rw [hundo29]
    show (if (29 : ℕ) = 0 then f.shapes else f.history.getD (f.historyIndex - 29) [])
      = cs.getD 5 []
    rw [if_neg (by omega : ¬ (29 : ℕ) = 0), hidx]
    simpa using hget0
  refine ⟨hcap, hlen, hu29, ?_, ?_⟩
  · intro k
    rcases le_or_lt k 29 with hk | hk
    · rw [Hist.undoN_spec k f (by omega)]
      show (if k = 0 then f.shapes else f.history.getD (f.historyIndex - k) []) ≠ []
      rcases Nat.eq_zero_or_pos k with rfl | hkpos
      · simp only [if_pos rfl]
        intro h
        exact hne (h ▸ hshapes)
      · rw [if_neg (Nat.pos_iff_ne_zero.mp hkpos)]
        intro h
        have hin : f.history.getD (f.historyIndex - k) [] ∈ f.history :=
          getD_mem_of_lt _ (by omega)
        exact hne (h ▸ hmem _ hin)
    · have hsplit : Hist.undoN k f = Hist.undoN (k - 29) (Hist.undoN 29 f) := by
        conv_lhs => rw [show k = 29 + (k - 29) by omega]
        exact Hist.undoN_add 29 (k - 29) f
      rw [hsplit, Hist.undoN_saturates _ _ hsat, hu29]
      intro h
      have hin : cs.getD 5 [] ∈ cs := getD_mem_of_lt _ (by omega)
      exact hne (h ▸ hin)
  · intro k hk
    have hsplit : Hist.undoN k f = Hist.undoN (k - 29) (Hist.undoN 29 f) := by
      conv_lhs => rw [show k = 29 + (k - 29) by omega]
      exact Hist.undoN_add 29 (k - 29) f
    rw [hsplit, Hist.undoN_saturates _ _ hsat]

/-- 35 distinct singleton states: state `k` holds the single pencil shape
with id `k`. -/
noncomputable def commit35States : List (List ShapeV) :=
  (List.range 35).map (fun k : ℕ => [samplePencil (k : ℤ) 1])

/-- Witness for `history_cap_35_commits` at `commit35States`. -/
theorem history_cap_35_commits_witness :
    (commit35States.length = 35 ∧ ([] : List ShapeV) ∉ commit35States) ∧
    (Hist.undoN 29
        (commit35States.foldl (fun h c => Hist.setShapes h c true) Hist.initial)).shapes
      = commit35States.getD 5 [] :=
  ⟨⟨by unfold commit35States; rw [List.length_map, List.length_range],
    by unfold commit35States; simp⟩,
   (history_cap_35_commits commit35States
     (by unfold commit35States; rw [List.length_map, List.length_range])
     (by unfold commit35States; simp)).2.2.1⟩

/-- C4: for any history state whose live collection agrees with the entry
under the cursor (as is the case for every state reached by commits,
cf. `Hist.commit_fold_spec`) and whose cursor is positive, `undo()` then
`redo()` restores both the live shape collection and the cursor exactly;
`undo()` at cursor 0 and `redo()` at the tip leave the state unchanged. -/
theorem undo_redo_round_trip (st : Hist.State) :
    (0 < st.historyIndex → st.historyIndex < st.history.length →
      st.shapes = st.history.getD st.historyIndex [] →
      Hist.redo (Hist.undo st) = st) ∧
    (st.historyIndex = 0 → Hist.undo st = st) ∧
    (st.historyIndex = st.history.length - 1 → Hist.redo st = st) := by
  obtain ⟨sh, hist, idx⟩ := st
  refine ⟨?_, ?_, ?_⟩
  · intro h1 h2 h3
    replace h1 : 0 < idx := h1
    replace h2 : idx < hist.length := h2
    replace h3 : sh = hist.getD idx [] := h3
    have hu : Hist.undo ⟨sh, hist, idx⟩ =
        ⟨hist.getD (idx - 1) [], hist, idx - 1⟩ := by
      simp [Hist.undo, h1]
    rw [hu]
    have hcond : idx - 1 < hist.length - 1 := by omega
    have hidx : idx - 1 + 1 = idx := by omega
    simp only [Hist.redo]
    rw [if_pos hcond]
    simp only [hidx, Hist.State.mk.injEq]
    exact ⟨h3.symm, trivial, trivial⟩
  · intro h0
    replace h0 : idx = 0 := h0
    simp [Hist.undo, h0]
  · intro htip
    replace htip : idx = hist.length - 1 := htip
    have : ¬ idx < hist.length - 1 := by omega
    simp [Hist.redo, this]

/-- Witness for `undo_redo_round_trip`: history `[[], [pencil]]` with the
cursor at the tip. -/
theorem undo_redo_round_trip_witness :
    (0 < 1 ∧ 1 < ([[], [samplePencil 0 1]] : List (List ShapeV)).length ∧
      ([samplePencil 0 1] : List ShapeV)
        = ([[], [samplePencil 0 1]] : List (List ShapeV)).getD 1 []) ∧
    Hist.redo (Hist.undo ⟨[samplePencil 0 1], [[], [samplePencil 0 1]], 1⟩)
      = ⟨[samplePencil 0 1], [[], [samplePencil 0 1]], 1⟩ :=
  ⟨⟨by decide, by decide, rfl⟩,
   (undo_redo_round_trip ⟨[samplePencil 0 1], [[], [samplePencil 0 1]], 1⟩).1
     (by decide) (by decide) rfl⟩

/-- C7: for a single rectangle with corners `(0,0)`-`(100,100)`, position
resolution returns `inside` at `(50,50)`, no match at `(200,200)`, and the
`topLeft` handle at `(0,0)` (the corner handles, tolerance 5, are tested
before containment). -/
theorem rectangle_hit_test_cases :
    getShapeAtPosition 50 50 [sampleRect 0 0 0 100 100 1] =
      some (sampleRect 0 0 0 100 100 1, some "inside") ∧
    getShapeAtPosition 200 200 [sampleRect 0 0 0 100 100 1] = Option.none ∧
    getShapeAtPosition 0 0 [sampleRect 0 0 0 100 100 1] =
      some (sampleRect 0 0 0 100 100 1, some "topLeft") := by
  refine ⟨?_, ?_, ?_⟩ <;>
    norm_num [getShapeAtPosition, positionWithinshape, sampleRect, createShape,
      isPointNear, isPointInRectangle, List.find?]

-- ===== Generic list-access helpers =====

theorem getD_set_self {α : Type} (l : List α) (i : ℕ) (v d : α)
    (h : i < l.length) : (l.set i v).getD i d = v := by
  rw [List.getD_eq_getElem?_getD, List.getElem?_set_self (by simpa using h)]
  rfl

theorem getD_set_ne {α : Type} (l : List α) (i j : ℕ) (v d : α)
    (h : ¬ i = j) : (l.set i v).getD j d = l.getD j d := by
  rw [List.getD_eq_getElem?_getD, List.getElem?_set_ne h,
    ← List.getD_eq_getElem?_getD]

theorem getD_append_length {α : Type} (l : List α) (v d : α) :
    (l ++ [v]).getD l.length d = v := by
  rw [List.getD_eq_getElem?_getD, List.getElem?_append_right le_rfl]
  simp

theorem getD_append_of_lt {α : Type} (l ext : List α) (i : ℕ) (d : α)
    (h : i < l.length) : (l ++ ext).getD i d = l.getD i d := by
  rw [List.getD_eq_getElem?_getD, List.getElem?_append_left h,
    ← List.getD_eq_getElem?_getD]

/-- Dereferencing an already-allocated reference is unaffected by heap
growth. -/
theorem Sess.getSh_append_of_lt (heap ext : List ShapeV) (r : Sess.Ref)
    (h : r < heap.length) : Sess.getSh (heap ++ ext) r = Sess.getSh heap r :=
  getD_append_of_lt heap ext r defaultShape h

-- ===== C10: bounding-orientation adjustment =====

/-- An inverted circle (drag from `(10,10)` to `(0,0)`), as at the end of
a drawing gesture. -/
noncomputable def circleInv : ShapeV :=
  createShape ⟨0, 10, 10, 0, 0, Tools.circle⟩ "#000000" "transparent" 2 1

/-- An inverted rectangle. -/
noncomputable def rectInv : ShapeV :=
  createShape ⟨0, 10, 10, 0, 0, Tools.rectangle⟩ "#000000" "transparent" 2 1

/-- The machine state at the end of drawing `circleInv`. -/
noncomputable def drawCircleEnd : Sess.State :=
  { Sess.initialState with
    heap := [circleInv], shapes := [0], tool := Tools.circle,
    action := Action.drawing,
    selectedShape := some ⟨circleInv, Option.none, Option.none, Option.none,
      Option.none, Option.none⟩ }

/-- The machine state at the end of resizing `rectInv`. -/
noncomputable def resizeRectEnd : Sess.State :=
  { Sess.initialState with
    heap := [rectInv], shapes := [0], tool := Tools.selection,
    action := Action.resizing,
    selectedShape := some ⟨rectInv, some "topLeft", some 0, some 0,
      Option.none, Option.none⟩ }

/-- C10 counterexample: (a) completing a drawing gesture on a circle whose
corners are inverted (`(10,10)`-`(0,0)`) leaves the circle unnormalized —
circles (like triangles and diamonds) are not in
`requiresCoordinateAdjustment`, so no box-like normalization happens at
pointer-up for them; (b) completing a *resizing* gesture on an inverted
rectangle commits the handler's captured pre-adjustment array, so the live
collection still holds the unnormalized rectangle. -/
theorem adjustment_missing_for_circle_and_resize :
    (Sess.liveValues (Sess.handleMouseUp drawCircleEnd (fun _ => 0) 0 0)
        = [circleInv] ∧
      circleInv.x1 = 10 ∧ circleInv.x2 = 0 ∧ circleInv.y1 = 10 ∧
      circleInv.y2 = 0) ∧
    (Sess.liveValues (Sess.handleMouseUp resizeRectEnd (fun _ => 0) 0 0)
        = [rectInv] ∧
      rectInv.x1 = 10 ∧ rectInv.x2 = 0) :=
  ⟨⟨rfl, rfl, rfl, rfl, rfl⟩, ⟨rfl, rfl, rfl⟩⟩

/-- C10 (amended): only rectangles and lines are adjusted
(`requiresCoordinateAdjustment`); the adjustment normalizes a rectangle to
top-left/bottom-right and swaps a non-rectangle's endpoints exactly when
`¬(x1 < x2 ∨ (x1 = x2 ∧ y1 < y2))`; it is applied at pointer-up after a
*drawing* gesture (the final live rectangle is normalized); after a
*resizing* gesture the commit restores the captured pre-adjustment
collection; and a mid-drag drawing move stores the raw pointer corner with
no normalization. -/
theorem adjustment_only_rectangle_line_at_drawing_end :
    (∀ t : Tools, requiresCoordinateAdjustment t = true ↔
      (t = Tools.rectangle ∨ t = Tools.line)) ∧
    (∀ s : ShapeV, s.type = Tools.rectangle →
      adjustShapeCoordinates s =
        ⟨min s.x1 s.x2, min s.y1 s.y2, max s.x1 s.x2, max s.y1 s.y2⟩ ∧
      (adjustShapeCoordinates s).x1 ≤ (adjustShapeCoordinates s).x2 ∧
      (adjustShapeCoordinates s).y1 ≤ (adjustShapeCoordinates s).y2) ∧
    (∀ s : ShapeV, ¬ s.type = Tools.rectangle →
      ((s.x1 < s.x2 ∨ (s.x1 = s.x2 ∧ s.y1 < s.y2)) →
        adjustShapeCoordinates s = ⟨s.x1, s.y1, s.x2, s.y2⟩) ∧
      (¬ (s.x1 < s.x2 ∨ (s.x1 = s.x2 ∧ s.y1 < s.y2)) →
        adjustShapeCoordinates s = ⟨s.x2, s.y2, s.x1, s.y1⟩)) ∧
    (∀ (st : Sess.State) (m : String → ℚ) (ex ey : ℚ) (sel : Sess.Selected)
        (r : Sess.Ref),
      st.action = Action.drawing → st.selectedShape = some sel →
      ¬ sel.shape.type = Tools.text →
      st.shapes[sel.shape.id.toNat]? = some r →
      (Sess.getSh st.heap r).type = Tools.rectangle →
      (Sess.getSh st.heap r).id = sel.shape.id →
      sel.shape.id.toNat < st.shapes.length →
      (Sess.getSh (Sess.handleMouseUp st m ex ey).heap
          (((Sess.handleMouseUp st m ex ey).shapes).getD sel.shape.id.toNat 0)).x1
        = min (Sess.getSh st.heap r).x1 (Sess.getSh st.heap r).x2 ∧
      (Sess.getSh (Sess.handleMouseUp st m ex ey).heap
          (((Sess.handleMouseUp st m ex ey).shapes).getD sel.shape.id.toNat 0)).y1
        = min (Sess.getSh st.heap r).y1 (Sess.getSh st.heap r).y2 ∧
      (Sess.getSh (Sess.handleMouseUp st m ex ey).heap
          (((Sess.handleMouseUp st m ex ey).shapes).getD sel.shape.id.toNat 0)).x2
        = max (Sess.getSh st.heap r).x1 (Sess.getSh st.heap r).x2 ∧
      (Sess.getSh (Sess.handleMouseUp st m ex ey).heap
          (((Sess.handleMouseUp st m ex ey).shapes).getD sel.shape.id.toNat 0)).y2
        = max (Sess.getSh st.heap r).y1 (Sess.getSh st.heap r).y2) ∧
    (∀ (st : Sess.State) (m : String → ℚ) (ex ey : ℚ) (sel : Sess.Selected)
        (r : Sess.Ref),
      st.action = Action.resizing → st.selectedShape = some sel →
      ¬ sel.shape.type = Tools.text →
      st.shapes[sel.shape.id.toNat]? = some r →
      (Sess.getSh st.heap r).type = Tools.rectangle →
      (Sess.handleMouseUp st m ex ey).shapes = st.shapes) ∧
    (∀ (st : Sess.State) (m : String → ℚ) (ex ey : ℚ) (r : Sess.Ref),
      st.action = Action.drawing →
      st.shapes[st.shapes.length - 1]? = some r →
      st.tool = Tools.rectangle →
      st.shapes.length - 1 < st.shapes.length →
      (Sess.getSh (Sess.handleMouseMove st m ex ey).heap
          ((Sess.handleMouseMove st m ex ey).shapes.getD (st.shapes.length - 1) 0)).x1
        = (Sess.getSh st.heap r).x1 ∧
      (Sess.getSh (Sess.handleMouseMove st m ex ey).heap
          ((Sess.handleMouseMove st m ex ey).shapes.getD (st.shapes.length - 1) 0)).x2
        = (getMouseCoordinates ex ey st.panOffset st.scale st.scaleOffset).x) := by
  refine ⟨?_, ?_, ?_, ?_, ?_, ?_⟩
  · intro t
    cases t <;> simp [requiresCoordinateAdjustment]
  · intro s h
    unfold adjustShapeCoordinates
    rw [if_pos h]
    exact ⟨rfl, min_le_max, min_le_max⟩
  · intro s h
    constructor <;> intro h2
    · unfold adjustShapeCoordinates
      rw [if_neg h, if_pos h2]
    · unfold adjustShapeCoordinates
      rw [if_neg h, if_neg h2]
  · intro st m ex ey sel r ha hsel htext hr htype hid hlt
    simp only [Sess.handleMouseUp, hsel, hr, ha, htype, hid,
      requiresCoordinateAdjustment, Sess.updateElement, Sess.mouseUpFinish,
      Sess.setShapesR, Sess.alloc]
    rw [if_neg (fun h => htext h.1)]
    simp only [reduceCtorEq, decide_True, decide_False, Bool.true_or,
      Bool.or_false, Bool.false_or, true_or, or_false, false_or, true_and,
      and_true, ite_true, Bool.false_eq_true, ite_false, Option.getD_some,
      Option.some_bind]
    rw [getD_set_self st.shapes _ _ 0 hlt]
    show (Sess.getSh (st.heap ++ [_]) st.heap.length).x1 = _ ∧
      (Sess.getSh (st.heap ++ [_]) st.heap.length).y1 = _ ∧
      (Sess.getSh (st.heap ++ [_]) st.heap.length).x2 = _ ∧
      (Sess.getSh (st.heap ++ [_]) st.heap.length).y2 = _
    unfold Sess.getSh
    rw [getD_append_length]
    simp only [createShape, adjustShapeCoordinates]
    rw [if_pos (show (st.heap.getD r defaultShape).type = Tools.rectangle from htype)]
    exact ⟨rfl, rfl, rfl, rfl⟩
  · intro st m ex ey sel r ha hsel htext hr htype
    simp only [Sess.handleMouseUp, hsel, hr, ha, htype,
      requiresCoordinateAdjustment, Sess.updateElement, Sess.mouseUpFinish,
      Sess.setShapesR, Sess.alloc]
    rw [if_neg (fun h => htext h.1)]
    simp only [reduceCtorEq, decide_True, decide_False, Bool.true_or,
      Bool.or_false, Bool.false_or, true_or, or_true, or_false, false_or,
      true_and, and_true, ite_true, Bool.false_eq_true, ite_false,
      Option.getD_some, Option.some_bind]
  · intro st m ex ey r ha hr htool hlt
    simp only [Sess.handleMouseMove, ha, hr, htool, Sess.updateElement,
      Sess.setShapesR, Sess.alloc, reduceCtorEq, ite_false, ite_true,
      Bool.false_eq_true, Option.getD_some, Option.some_bind]
    rw [show (((st.shapes.length - 1 : ℕ) : ℤ)).toNat = st.shapes.length - 1
      from Int.toNat_natCast _]
    rw [getD_set_self st.shapes _ _ 0 hlt]
    show (Sess.getSh (st.heap ++ [_]) st.heap.length).x1 = _ ∧
      (Sess.getSh (st.heap ++ [_]) st.heap.length).x2 = _
    unfold Sess.getSh
    rw [getD_append_length]
    simp only [createShape]
    exact ⟨trivial, trivial⟩

/-- The machine state at the end of drawing `rectInv`. -/
noncomputable def drawRectEnd : Sess.State :=
  { Sess.initialState with
    heap := [rectInv], shapes := [0], tool := Tools.rectangle,
    action := Action.drawing,
    selectedShape := some ⟨rectInv, Option.none, Option.none, Option.none,
      Option.none, Option.none⟩ }

/-- Witness for `adjustment_only_rectangle_line_at_drawing_end`: pointer-up
after drawing the inverted rectangle `rectInv` leaves a normalized
rectangle in the live collection. -/
theorem adjustment_only_rectangle_line_witness :
    (drawRectEnd.action = Action.drawing ∧
      ¬ (rectInv.type = Tools.text) ∧
      drawRectEnd.shapes[(0 : ℕ)]? = some 0 ∧
      (Sess.getSh drawRectEnd.heap 0).type = Tools.rectangle) ∧
    ((Sess.getSh (Sess.handleMouseUp drawRectEnd (fun _ => 0) 0 0).heap
        ((Sess.handleMouseUp drawRectEnd (fun _ => 0) 0 0).shapes.getD 0 0)).x1
      = min rectInv.x1 rectInv.x2 ∧
     (Sess.getSh (Sess.handleMouseUp drawRectEnd (fun _ => 0) 0 0).heap
        ((Sess.handleMouseUp drawRectEnd (fun _ => 0) 0 0).shapes.getD 0 0)).y1
      = min rectInv.y1 rectInv.y2 ∧
     (Sess.getSh (Sess.handleMouseUp drawRectEnd (fun _ => 0) 0 0).heap
        ((Sess.handleMouseUp drawRectEnd (fun _ => 0) 0 0).shapes.getD 0 0)).x2
      = max rectInv.x1 rectInv.x2 ∧
     (Sess.getSh (Sess.handleMouseUp drawRectEnd (fun _ => 0) 0 0).heap
        ((Sess.handleMouseUp drawRectEnd (fun _ => 0) 0 0).shapes.getD 0 0)).y2
      = max rectInv.y1 rectInv.y2) :=
  ⟨⟨rfl, by decide, rfl, rfl⟩,
   (adjustment_only_rectangle_line_at_drawing_end).2.2.2.1 drawRectEnd
     (fun _ => 0) 0 0
     ⟨rectInv, Option.none, Option.none, Option.none, Option.none, Option.none⟩
     0 rfl rfl (by decide) rfl rfl rfl (by decide)⟩

-- ===== C8: group move =====

/-- What moving a group by `(dX, dY)` does to one member whose slot holds
the member itself: every point of a pencil member, or all four bounding
coordinates of any other member, translated by exactly `(dX, dY)`. -/
def groupMoveTranslate (dX dY : ℚ) (s : ShapeV) : ShapeV :=
  if s.type = Tools.pencil ∧ s.points.isSome then
    { s with points := some ((s.points.getD []).map
        (fun p => (⟨p.x + dX, p.y + dY⟩ : Pt))) }
  else
    { s with x1 := s.x1 + dX, y1 := s.y1 + dY, x2 := s.x2 + dX, y2 := s.y2 + dY }

/-- One iteration of the group-move loop, on a slot that holds the member
being processed: it allocates the translated member and points the slot at
it. -/
theorem moveGroupStep_eq (dX dY : ℚ) (heap : List ShapeV)
    (shapes : List Sess.Ref) (upd : List ShapeV) (m : ShapeV)
    (hidx : m.id.toNat < shapes.length)
    (hslot : Sess.getSh heap (shapes.getD m.id.toNat 0) = m) :
    ∃ u, Sess.moveGroupStep dX dY (heap, shapes, upd) m
      = (heap ++ [groupMoveTranslate dX dY m],
         shapes.set m.id.toNat heap.length, upd ++ [u]) := by
  have hget : shapes[m.id.toNat]? = some (shapes.getD m.id.toNat 0) := by
    rw [List.getElem?_eq_getElem hidx, List.getD_eq_getElem]
  by_cases hp : m.type = Tools.pencil ∧ m.points.isSome
  · refine ⟨{ m with points := some ((m.points.getD []).map
        (fun p => (⟨p.x + dX, p.y + dY⟩ : Pt))) }, ?_⟩
    simp only [Sess.moveGroupStep, Sess.alloc, hget, hslot,
      groupMoveTranslate, if_pos hp]
  · refine
      ⟨{ m with
          x1 := m.x1 + dX, y1 := m.y1 + dY, x2 := m.x2 + dX, y2 := m.y2 + dY },
        ?_⟩
    simp only [Sess.moveGroupStep, Sess.alloc, hget, hslot,
      groupMoveTranslate, if_neg hp]

/-- The group-move loop, run over members with pairwise-distinct slot
indices each of whose slot holds the member itself: afterwards every
member's slot holds its translation, every other slot is untouched, the
slot array keeps its length, and the arena has only grown. -/
theorem moveGroupStep_fold_spec (dX dY : ℚ) :
    ∀ (ms : List ShapeV) (heap : List ShapeV) (shapes : List Sess.Ref)
      (upd : List ShapeV),
      (∀ m ∈ ms, m.id.toNat < shapes.length ∧
        shapes.getD m.id.toNat 0 < heap.length ∧
        Sess.getSh heap (shapes.getD m.id.toNat 0) = m) →
      (ms.map (fun m => m.id.toNat)).Nodup →
      (∀ m ∈ ms,
        Sess.getSh (ms.foldl (Sess.moveGroupStep dX dY) (heap, shapes, upd)).1
            ((ms.foldl (Sess.moveGroupStep dX dY) (heap, shapes, upd)).2.1.getD
              m.id.toNat 0)
          = groupMoveTranslate dX dY m) ∧
      (∀ j : ℕ, (∀ m ∈ ms, ¬ j = m.id.toNat) →
        (ms.foldl (Sess.moveGroupStep dX dY) (heap, shapes, upd)).2.1.getD j 0
          = shapes.getD j 0) ∧
      (ms.foldl (Sess.moveGroupStep dX dY) (heap, shapes, upd)).2.1.length
        = shapes.length ∧
      ∃ ext, (ms.foldl (Sess.moveGroupStep dX dY) (heap, shapes, upd)).1
        = heap ++ ext := by
  intro ms
  induction ms with
  | nil =>
    intro heap shapes upd _ _
    exact ⟨fun m hm => absurd hm (List.not_mem_nil m),
      fun j _ => rfl, rfl, ⟨[], (List.append_nil heap).symm⟩⟩
  | cons m rest ih =>
    intro heap shapes upd hmem hnd
    obtain ⟨hidx, href, hslot⟩ := hmem m (List.mem_cons_self m rest)
    obtain ⟨u, hstep⟩ := moveGroupStep_eq dX dY heap shapes upd m hidx hslot
    have hnd2 : (∀ x ∈ rest, ¬ x.id.toNat = m.id.toNat) ∧
        (rest.map (fun m => m.id.toNat)).Nodup := by
      simpa using hnd
    have hnd' : (rest.map (fun m => m.id.toNat)).Nodup := hnd2.2
    have hne : ∀ m' ∈ rest, ¬ m'.id.toNat = m.id.toNat := hnd2.1
    have hmem' : ∀ m' ∈ rest,
        m'.id.toNat < (shapes.set m.id.toNat heap.length).length ∧
        (shapes.set m.id.toNat heap.length).getD m'.id.toNat 0 <
          (heap ++ [groupMoveTranslate dX dY m]).length ∧
        Sess.getSh (heap ++ [groupMoveTranslate dX dY m])
            ((shapes.set m.id.toNat heap.length).getD m'.id.toNat 0) = m' := by
      intro m' hm'
      obtain ⟨h1, h2, h3⟩ := hmem m' (List.mem_cons_of_mem m hm')
      have hne' := hne m' hm'
      refine ⟨by simpa using h1, ?_, ?_⟩
      · rw [getD_set_ne shapes m.id.toNat m'.id.toNat heap.length 0
          (fun h => hne' h.symm)]
        exact Nat.lt_of_lt_of_le h2
          (by rw [List.length_append]; exact Nat.le_add_right _ _)
      · rw [getD_set_ne shapes m.id.toNat m'.id.toNat heap.length 0
          (fun h => hne' h.symm)]
        unfold Sess.getSh
        rw [getD_append_of_lt heap [groupMoveTranslate dX dY m] _ _ h2]
        exact h3
    obtain ⟨IH1, IH2, IH3, ext, hext⟩ :=
      ih (heap ++ [groupMoveTranslate dX dY m])
        (shapes.set m.id.toNat heap.length) (upd ++ [u]) hmem' hnd'
    rw [List.foldl_cons, hstep]
    refine ⟨?_, ?_, ?_, ?_⟩
    · intro m' hm'
      rcases List.mem_cons.mp hm' with he | hm'r
      · subst he
        rw [IH2 m'.id.toNat (fun n hn h => hne n hn h.symm)]
        rw [getD_set_self shapes m'.id.toNat heap.length 0 hidx]
        unfold Sess.getSh
        rw [hext]
        rw [getD_append_of_lt (heap ++ [groupMoveTranslate dX dY m']) ext
          heap.length defaultShape (by simp)]
        exact getD_append_length heap _ defaultShape
      · exact IH1 m' hm'r
    · intro j hj
      rw [IH2 j (fun n hn => hj n (List.mem_cons_of_mem m hn))]
      exact getD_set_ne shapes m.id.toNat j heap.length 0
        (fun h => hj m (List.mem_cons_self m rest) h.symm)
    · rw [IH3, List.length_set]
    · exact ⟨[groupMoveTranslate dX dY m] ++ ext,
        by rw [hext, List.append_assoc]⟩

/-- Two ungrouped rectangles, ids equal to their slot indices. -/
def rU1 : ShapeV :=
  ⟨0, 0, 0, 10, 10, Tools.rectangle, "#000000", "transparent", 2, some 1,
   Option.none, false, Option.none, Option.none, Option.none⟩

def rU2 : ShapeV :=
  ⟨1, 20, 0, 30, 10, Tools.rectangle, "#000000", "transparent", 2, some 2,
   Option.none, false, Option.none, Option.none, Option.none⟩

/-- A store with the two rectangles live, before grouping. -/
def stUngrouped : Sess.State :=
  { Sess.initialState with
    heap := [rU1, rU2], shapes := [0, 1], tool := Tools.selection }

/-- The same store after `groupShapes` over both shapes. -/
def stGrouped : Sess.State := Sess.groupShapesR stUngrouped [0, 1] "g" 0

/-- A selection of the first member with grab offsets `(5, 5)`. -/
def selGroup : Sess.Selected :=
  ⟨Sess.getSh stGrouped.heap (stGrouped.shapes.getD 0 0), some "inside",
   some 5, some 5, Option.none, Option.none⟩

/-- C8 counterexample: grouping the two rectangles and then moving the
group by `(11, 11)` translates both members, but the group's cached
bounding box stored in `groups` stays at `(0, 0)-(30, 10)`: the cached
bounds do not shift with the members. -/
theorem group_move_cached_bounds_not_shifted :
    (Sess.liveValues (Sess.moveGroup stGrouped selGroup 16 16)).map
        (fun s => (s.x1, s.y1, s.x2, s.y2))
      = [(11, 11, 21, 21), (31, 11, 41, 21)] ∧
    (Sess.moveGroup stGrouped selGroup 16 16).groups = stGrouped.groups ∧
    stGrouped.groups.map (fun g => (g.x1, g.y1, g.x2, g.y2))
      = [(0, 0, 30, 10)] := by
  refine ⟨?_, rfl, ?_⟩
  · norm_num [Sess.moveGroup, Sess.moveGroupStep, Sess.groupShapesR,
      Sess.setShapesR, Sess.alloc, Sess.getSh, Sess.liveValues, stGrouped,
      stUngrouped, selGroup, rU1, rU2, minList, Sess.initialState,
      calculateGroupBounds, defaultShape]
    exact ⟨⟨rfl, rfl, rfl, rfl⟩, rfl, rfl, rfl, rfl⟩
  · norm_num [stGrouped, Sess.groupShapesR, Sess.alloc, Sess.getSh,
      stUngrouped, rU1, rU2, calculateGroupBounds, Sess.initialState,
      defaultShape]

/-- C8 (amended): in a store whose member slots hold shapes with
`id = slot index` (the store's creation discipline), the group-moving
branch of `handleMouseMove` translates every member of the selected
group — all four bounding coordinates of a box/line member and every
point of a pencil member — by the same delta
`(clientX - offsetX - min x, clientY - offsetY - min y)`, leaves every
non-member slot untouched, and does not touch the `groups` collection or
the history: the group's cached bounds do NOT shift with the members. -/
theorem group_move_translates_members_not_cached_bounds
    (st : Sess.State) (sel : Sess.Selected) (clientX clientY : ℚ)
    (hmem : ∀ m ∈ (Sess.liveValues st).filter
        (fun s => s.groupId = sel.shape.groupId),
      m.id.toNat < st.shapes.length ∧
      st.shapes.getD m.id.toNat 0 < st.heap.length ∧
      Sess.getSh st.heap (st.shapes.getD m.id.toNat 0) = m)
    (hnd : (((Sess.liveValues st).filter
        (fun s => s.groupId = sel.shape.groupId)).map
        (fun m => m.id.toNat)).Nodup) :
    (∀ m ∈ (Sess.liveValues st).filter (fun s => s.groupId = sel.shape.groupId),
      Sess.getSh (Sess.moveGroup st sel clientX clientY).heap
          ((Sess.moveGroup st sel clientX clientY).shapes.getD m.id.toNat 0)
        = groupMoveTranslate
            (clientX - sel.offsetX.getD 0 -
              minList (((Sess.liveValues st).filter
                (fun s => s.groupId = sel.shape.groupId)).map
                (fun s => min s.x1 s.x2)))
            (clientY - sel.offsetY.getD 0 -
              minList (((Sess.liveValues st).filter
                (fun s => s.groupId = sel.shape.groupId)).map
                (fun s => min s.y1 s.y2))) m) ∧
    (∀ j : ℕ, (∀ m ∈ (Sess.liveValues st).filter
        (fun s => s.groupId = sel.shape.groupId), ¬ j = m.id.toNat) →
      (Sess.moveGroup st sel clientX clientY).shapes.getD j 0
        = st.shapes.getD j 0) ∧
    (Sess.moveGroup st sel clientX clientY).groups = st.groups ∧
    (Sess.moveGroup st sel clientX clientY).history = st.history := by
  obtain ⟨H1, H2, _, _⟩ := moveGroupStep_fold_spec
    (clientX - sel.offsetX.getD 0 -
      minList (((Sess.liveValues st).filter
        (fun s => s.groupId = sel.shape.groupId)).map
        (fun s => min s.x1 s.x2)))
    (clientY - sel.offsetY.getD 0 -
      minList (((Sess.liveValues st).filter
        (fun s => s.groupId = sel.shape.groupId)).map
        (fun s => min s.y1 s.y2)))
    ((Sess.liveValues st).filter (fun s => s.groupId = sel.shape.groupId))
    st.heap st.shapes [] hmem hnd
  exact ⟨fun m hm => H1 m hm, fun j hj => H2 j hj, rfl, rfl⟩

/-- Witness for `group_move_translates_members_not_cached_bounds` at the
grouped two-rectangle store. -/
theorem group_move_translates_members_witness :
    ((∀ m ∈ (Sess.liveValues stGrouped).filter
        (fun s => s.groupId = selGroup.shape.groupId),
      m.id.toNat < stGrouped.shapes.length ∧
      stGrouped.shapes.getD m.id.toNat 0 < stGrouped.heap.length ∧
      Sess.getSh stGrouped.heap (stGrouped.shapes.getD m.id.toNat 0) = m) ∧
    (((Sess.liveValues stGrouped).filter
        (fun s => s.groupId = selGroup.shape.groupId)).map
        (fun m => m.id.toNat)).Nodup) ∧
    ((∀ m ∈ (Sess.liveValues stGrouped).filter
        (fun s => s.groupId = selGroup.shape.groupId),
      Sess.getSh (Sess.moveGroup stGrouped selGroup 16 16).heap
          ((Sess.moveGroup stGrouped selGroup 16 16).shapes.getD m.id.toNat 0)
        = groupMoveTranslate
            (16 - selGroup.offsetX.getD 0 -
              minList (((Sess.liveValues stGrouped).filter
                (fun s => s.groupId = selGroup.shape.groupId)).map
                (fun s => min s.x1 s.x2)))
            (16 - selGroup.offsetY.getD 0 -
              minList (((Sess.liveValues stGrouped).filter
                (fun s => s.groupId = selGroup.shape.groupId)).map
                (fun s => min s.y1 s.y2))) m) ∧
    (Sess.moveGroup stGrouped selGroup 16 16).groups = stGrouped.groups) := by
  have hfil : (Sess.liveValues stGrouped).filter
      (fun s => s.groupId = selGroup.shape.groupId) =
      [{ rU1 with groupId := some "g", isGrouped := true },
       { rU2 with groupId := some "g", isGrouped := true }] := rfl
  have hmem : ∀ m ∈ (Sess.liveValues stGrouped).filter
      (fun s => s.groupId = selGroup.shape.groupId),
      m.id.toNat < stGrouped.shapes.length ∧
      stGrouped.shapes.getD m.id.toNat 0 < stGrouped.heap.length ∧
      Sess.getSh stGrouped.heap (stGrouped.shapes.getD m.id.toNat 0) = m := by
    intro m hm
    rw [hfil] at hm
    simp only [List.mem_cons, List.not_mem_nil, or_false] at hm
    rcases hm with h | h
    · subst h; exact ⟨by decide, by decide, rfl⟩
    · subst h; exact ⟨by decide, by decide, rfl⟩
  have hnd : (((Sess.liveValues stGrouped).filter
      (fun s => s.groupId = selGroup.shape.groupId)).map
      (fun m => m.id.toNat)).Nodup := by
    rw [hfil]; decide
  refine ⟨⟨hmem, hnd⟩, ?_, ?_⟩
  · exact (group_move_translates_members_not_cached_bounds stGrouped selGroup
      16 16 hmem hnd).1
  · exact (group_move_translates_members_not_cached_bounds stGrouped selGroup
      16 16 hmem hnd).2.2.1

-- ===== C6: z-order resolution =====

theorem zDescLE_trans : ∀ a b c : ShapeV,
    zDescLE a b = true → zDescLE b c = true → zDescLE a c = true := by
  intro a b c
  simp only [zDescLE, decide_eq_true_eq]
  intro h1 h2
  exact le_trans h2 h1

theorem zDescLE_total : ∀ a b : ShapeV, (zDescLE a b || zDescLE b a) = true := by
  intro a b
  simp only [zDescLE, Bool.or_eq_true, decide_eq_true_eq]
  exact le_total (zOf b) (zOf a)

/-- `find?` keeps its witness under a stronger predicate that the witness
still satisfies. -/
theorem find?_mono_some {α : Type} (p q : α → Bool) (l : List α) (b : α)
    (hpq : ∀ x, q x = true → p x = true) (hqb : q b = true) :
    l.find? p = some b → l.find? q = some b := by
  induction l with
  | nil => intro hfind; simp at hfind
  | cons h t ih =>
    intro hfind
    by_cases hq : q h = true
    · rw [List.find?_cons_of_pos t (hpq h hq)] at hfind
      rw [List.find?_cons_of_pos t hq]
      exact hfind
    · by_cases hp : p h = true
      · rw [List.find?_cons_of_pos t hp] at hfind
        obtain rfl := Option.some.inj hfind
        exact absurd hqb hq
      · rw [List.find?_cons_of_neg t hp] at hfind
        rw [List.find?_cons_of_neg t hq]
        exact ih hfind

/-- The sorted scan of `getShapeAtPosition` — first hit of the stable
z-descending sort — picks exactly the earliest collection-order hit of
maximal z-index. -/
theorem mergeSort_find?_hit (x y : ℚ) (shapes : List ShapeV) :
    (shapes.mergeSort zDescLE).find?
        (fun s => (positionWithinshape x y s).isSome)
      = (shapes.filter (fun s => (positionWithinshape x y s).isSome)).find?
          (fun s => decide (∀ t ∈ shapes.filter
              (fun s => (positionWithinshape x y s).isSome), zOf t ≤ zOf s)) := by
  induction shapes with
  | nil => rw [List.mergeSort_nil]; rfl
  | cons a l ih =>
    obtain ⟨l₁, l₂, hms, hms', hl₁⟩ :=
      List.mergeSort_cons zDescLE_trans zDescLE_total a l
    have hgt : ∀ b ∈ l₁, zOf a < zOf b := by
      intro b hb
      have h2 := hl₁ b hb
      rw [Bool.not_eq_true'] at h2
      simp only [zDescLE, decide_eq_false_iff_not] at h2
      exact not_le.mp h2
    by_cases hh : (positionWithinshape x y a).isSome = true
    · rw [@List.filter_cons_of_pos ShapeV
        (fun s => (positionWithinshape x y s).isSome) a l hh]
      rw [hms, List.find?_append,
        @List.find?_cons_of_pos ShapeV
          (fun s => (positionWithinshape x y s).isSome) a l₂ hh]
      cases hb : List.find? (fun s => (positionWithinshape x y s).isSome) l₁ with
      | none =>
        rw [Option.none_or]
        have hPa : decide (∀ t ∈ a :: l.filter
            (fun s => (positionWithinshape x y s).isSome), zOf t ≤ zOf a)
            = true := by
          rw [decide_eq_true_eq]
          intro t ht
          rcases List.mem_cons.mp ht with rfl | ht'
          · exact le_refl _
          · obtain ⟨htl, hhit⟩ := List.mem_filter.mp ht'
            have htms : t ∈ l.mergeSort zDescLE :=
              ((List.mergeSort_perm l zDescLE).mem_iff).mpr htl
            rw [hms'] at htms
            rcases List.mem_append.mp htms with h1 | h2
            · exact absurd hhit (List.find?_eq_none.mp hb t h1)
            · have hsorted :=
                List.sorted_mergeSort zDescLE_trans zDescLE_total (a :: l)
              rw [hms] at hsorted
              have hpa := (List.pairwise_append.mp hsorted).2.1
              have h3 := (List.pairwise_cons.mp hpa).1 t h2
              simpa [zDescLE, decide_eq_true_eq] using h3
        exact (@List.find?_cons_of_pos ShapeV
          (fun s => decide (∀ t ∈ a :: l.filter
            (fun s => (positionWithinshape x y s).isSome), zOf t ≤ zOf s))
          a (l.filter (fun s => (positionWithinshape x y s).isSome)) hPa).symm
      | some b =>
        have hhitb : (positionWithinshape x y b).isSome = true := by
          simpa using List.find?_some hb
        have hbl₁ : b ∈ l₁ := List.mem_of_find?_eq_some hb
        have hzb : zOf a < zOf b := hgt b hbl₁
        have hbl : b ∈ l := by
          have hmem : b ∈ l.mergeSort zDescLE := by
            rw [hms']
            exact List.mem_append_left l₂ hbl₁
          exact ((List.mergeSort_perm l zDescLE).mem_iff).mp hmem
        have hbfil : b ∈ l.filter (fun s => (positionWithinshape x y s).isSome) :=
          List.mem_filter.mpr ⟨hbl, hhitb⟩
        have hIH : (l.filter (fun s => (positionWithinshape x y s).isSome)).find?
            (fun s => decide (∀ t ∈ l.filter
              (fun s => (positionWithinshape x y s).isSome), zOf t ≤ zOf s))
            = some b := by
          rw [← ih, hms', List.find?_append, hb]
          rfl
        have hPb : decide (∀ t ∈ a :: l.filter
            (fun s => (positionWithinshape x y s).isSome), zOf t ≤ zOf b)
            = true := by
          rw [decide_eq_true_eq]
          intro t ht
          rcases List.mem_cons.mp ht with rfl | ht'
          · exact le_of_lt hzb
          · have hPb' := List.find?_some hIH
            rw [decide_eq_true_eq] at hPb'
            exact hPb' t ht'
        have hPa : ¬ decide (∀ t ∈ a :: l.filter
            (fun s => (positionWithinshape x y s).isSome), zOf t ≤ zOf a)
            = true := by
          rw [decide_eq_true_eq]
          intro hall
          exact absurd (hall b (List.mem_cons_of_mem a hbfil)) (not_le.mpr hzb)
        rw [@List.find?_cons_of_neg ShapeV
          (fun s => decide (∀ t ∈ a :: l.filter
            (fun s => (positionWithinshape x y s).isSome), zOf t ≤ zOf s))
          a (l.filter (fun s => (positionWithinshape x y s).isSome)) hPa]
        exact (find?_mono_some
          (fun s => decide (∀ t ∈ l.filter
            (fun s => (positionWithinshape x y s).isSome), zOf t ≤ zOf s))
          (fun s => decide (∀ t ∈ a :: l.filter
            (fun s => (positionWithinshape x y s).isSome), zOf t ≤ zOf s))
          (l.filter (fun s => (positionWithinshape x y s).isSome)) b
          (fun s hs => by
            rw [decide_eq_true_eq] at hs ⊢
            intro t ht
            exact hs t (List.mem_cons_of_mem a ht))
          hPb hIH).symm
    · rw [@List.filter_cons_of_neg ShapeV
        (fun s => (positionWithinshape x y s).isSome) a l hh]
      rw [hms, List.find?_append,
        @List.find?_cons_of_neg ShapeV
          (fun s => (positionWithinshape x y s).isSome) a l₂ hh,
        ← List.find?_append, ← hms']
      exact ih

/-- The specification's resolver, written from the spec's words: among the
shapes whose variant-specific part test at the point is non-null, the one
with the highest z-index — ties broken by collection order (the earliest
such maximal hit) — paired with its part; `none` when no shape matches. -/
noncomputable def specResolvePosition (x y : ℚ) (shapes : List ShapeV) :
    Option (ShapeV × Option String) :=
  let hits := shapes.filter (fun s => (positionWithinshape x y s).isSome)
  Option.map (fun s => (s, positionWithinshape x y s))
    (hits.find? (fun s => decide (∀ t ∈ hits, zOf t ≤ zOf s)))

theorem getShapeAtPosition_eq_spec (x y : ℚ) (shapes : List ShapeV) :
    getShapeAtPosition x y shapes = specResolvePosition x y shapes := by
  unfold getShapeAtPosition specResolvePosition
  rw [List.find?_map]
  simp only [Function.comp_def]
  rw [mergeSort_find?_hit x y shapes]

theorem getShapeAtPosition_eq_none_iff (x y : ℚ) (shapes : List ShapeV) :
    getShapeAtPosition x y shapes = Option.none ↔
      ∀ s ∈ shapes, positionWithinshape x y s = Option.none := by
  unfold getShapeAtPosition
  rw [List.find?_map]
  rw [Option.map_eq_none']
  rw [List.find?_eq_none]
  constructor
  · intro h s hs
    have h2 := h s (((List.mergeSort_perm shapes zDescLE).mem_iff).mpr hs)
    simp only [Function.comp_def] at h2
    cases hps : positionWithinshape x y s with
    | none => rfl
    | some v => exact absurd (by simp [hps]) h2
  · intro h s hs
    have h2 := h s (((List.mergeSort_perm shapes zDescLE).mem_iff).mp hs)
    simp [Function.comp_def, h2]

/-- C6: position resolution returns exactly the specification's choice —
the earliest collection-order shape of maximal z-index among those whose
variant-specific part test at the point is non-null, paired with its part
(so a lower-z shape is never returned when a higher-z one matches); it
returns no match exactly when no shape's part test matches; and for two
overlapping rectangles with z-index 1 and 2 both covering `(50, 50)`, the
z-index-2 rectangle is returned, with part `"inside"`. -/
theorem z_order_resolution (x y : ℚ) (shapes : List ShapeV) :
    getShapeAtPosition x y shapes = specResolvePosition x y shapes ∧
    (getShapeAtPosition x y shapes = Option.none ↔
      ∀ s ∈ shapes, positionWithinshape x y s = Option.none) ∧
    getShapeAtPosition 50 50
        [sampleRect 0 0 0 100 100 1, sampleRect 1 0 0 100 100 2]
      = some (sampleRect 1 0 0 100 100 2, some "inside") := by
  refine ⟨getShapeAtPosition_eq_spec x y shapes,
    getShapeAtPosition_eq_none_iff x y shapes, ?_⟩
  rw [getShapeAtPosition_eq_spec]
  norm_num [specResolvePosition, positionWithinshape, sampleRect, createShape,
    isPointNear, isPointInRectangle, List.find?, List.filter, zOf]

-- ===== C2: snapshot immutability =====

/-- The stored snapshots by value: each history entry dereferenced in the
current arena. -/
noncomputable def absHist (st : Sess.State) : List (List ShapeV) :=
  st.history.map (fun e => e.map (Sess.getSh st.heap))

/-- Thirty-one consecutive commits (plain `setShapes(-, true)`); no undo,
redo or any other operation appears anywhere in the chain. -/
noncomputable def commitChain : ℕ → Hist.State
  | 0 => Hist.initial
  | n + 1 => Hist.setShapes (commitChain n) [samplePencil (n : ℤ) 1] true

/-- A drawing-gesture state whose pencil target is aliased by a stored
snapshot — exactly what a mid-gesture undo produces (the keyboard handler
blocks undo only while `action === "writing"`): after the undo, the live
array is the restored history entry itself, so the gesture's target
object is shared with the history. -/
noncomputable def stAliased : Sess.State :=
  { Sess.initialState with
    heap := [samplePencil 0 1], shapes := [0],
    history := [[], [0]], historyIndex := 1,
    tool := Tools.pencil, action := Action.drawing,
    selectedShape := some ⟨samplePencil 0 1, Option.none, Option.none,
      Option.none, Option.none, Option.none⟩ }

set_option maxRecDepth 10000 in
/-- C2 counterexample: (a) after 31 straight commits with no undo ever
performed, the initial empty snapshot is gone from the history — the
30-cap drops the oldest entry, so truncation after an undo is not the
only way an entry disappears; (b) continuing the pencil drawing gesture
of `stAliased` appends a point to the stored snapshot's pencil in place:
the second history entry's pencil grows from 1 point to 2 although the
history list and the cursor are untouched (no commit happened). -/
theorem snapshot_mutated_and_capped :
    (([] : List ShapeV) ∈ (commitChain 0).history ∧
     (commitChain 31).history.map List.length = List.replicate 30 1 ∧
     ¬ ([] : List ShapeV) ∈ (commitChain 31).history) ∧
    ((Sess.handleMouseMove stAliased (fun _ => 0) 5 7).history
        = stAliased.history ∧
     (Sess.handleMouseMove stAliased (fun _ => 0) 5 7).historyIndex
        = stAliased.historyIndex ∧
     ((absHist stAliased).getD 1 []).map (fun s => (s.points.getD []).length)
        = [1] ∧
     ((absHist (Sess.handleMouseMove stAliased (fun _ => 0) 5 7)).getD 1
        []).map (fun s => (s.points.getD []).length) = [2]) := by
  have hlen : (commitChain 31).history.map List.length
      = List.replicate 30 1 := rfl
  refine ⟨⟨List.mem_singleton.mpr rfl, hlen, ?_⟩, rfl, rfl, rfl, rfl⟩
  intro hmem
  have h0 := List.mem_map_of_mem List.length hmem
  rw [hlen] at h0
  have h1 := List.eq_of_mem_replicate h0
  exact absurd h1 (by decide)

/-- C2 (amended): history entries are shallow snapshots of reference
arrays.  A commit stores the passed array itself and reshapes the history
only through `pushHistory` (truncation after undo and the 30-cap drop),
leaving the arena untouched; undo and redo never change the stored
history or the arena; the box/text variants of `updateElement` only
allocate, so they change no stored snapshot's contents; the pencil
variant mutates its target object in place, and exactly the snapshots
that do not contain the target keep their contents. -/
theorem snapshots_shallow_characterization :
    (∀ (st : Sess.State) (ns : List Sess.Ref),
      (Sess.setShapesR st ns true).history
        = (pushHistory st.history st.historyIndex ns).1 ∧
      (Sess.setShapesR st ns true).historyIndex
        = (pushHistory st.history st.historyIndex ns).2 ∧
      (Sess.setShapesR st ns true).heap = st.heap ∧
      (Sess.setShapesR st ns false).history = st.history ∧
      (Sess.setShapesR st ns false).heap = st.heap) ∧
    (∀ st : Sess.State,
      (Sess.undoR st).history = st.history ∧ (Sess.undoR st).heap = st.heap ∧
      (Sess.redoR st).history = st.history ∧ (Sess.redoR st).heap = st.heap) ∧
    (∀ (st : Sess.State) (m : String → ℚ) (id : ℤ) (x1 y1 x2 y2 : ℚ)
        (opts : Option String) (save : Bool) (st' : Sess.State) (r : Sess.Ref),
      Sess.updateElement st m id x1 y1 x2 y2 Tools.pencil opts save
        = some st' →
      st.shapes[id.toNat]? = some r →
      ∀ entry ∈ st.history, ¬ r ∈ entry →
        entry.map (Sess.getSh st'.heap) = entry.map (Sess.getSh st.heap)) ∧
    (∀ (st : Sess.State) (m : String → ℚ) (id : ℤ) (x1 y1 x2 y2 : ℚ)
        (ty : Tools) (opts : Option String) (save : Bool) (st' : Sess.State),
      (ty = Tools.line ∨ ty = Tools.rectangle ∨ ty = Tools.triangle ∨
        ty = Tools.circle ∨ ty = Tools.diamond ∨ ty = Tools.arrow ∨
        ty = Tools.text) →
      Sess.updateElement st m id x1 y1 x2 y2 ty opts save = some st' →
      ∀ r' : Sess.Ref, r' < st.heap.length →
        Sess.getSh st'.heap r' = Sess.getSh st.heap r') := by
  refine ⟨fun st ns => ⟨rfl, rfl, rfl, rfl, rfl⟩, fun st => ?_, ?_, ?_⟩
  · refine ⟨?_, ?_, ?_, ?_⟩ <;>
      first
        | (by_cases h : st.historyIndex > 0 <;> simp [Sess.undoR, h])
        | (by_cases h : st.historyIndex < st.history.length - 1 <;>
            simp [Sess.redoR, h])
  · intro st m id x1 y1 x2 y2 opts save st' r hupd hr entry hentry hnotin
    simp only [Sess.updateElement, hr] at hupd
    obtain rfl := Option.some.inj hupd
    apply List.map_congr_left
    intro q hq
    unfold Sess.getSh
    cases save <;>
      exact getD_set_ne st.heap r q _ defaultShape
        (fun h => hnotin (by rw [h]; exact hq))
  · intro st m id x1 y1 x2 y2 ty opts save st' hty hupd r' hr'
    obtain ⟨ext, hheap⟩ : ∃ ext, st'.heap = st.heap ++ ext := by
      rcases hty with rfl | rfl | rfl | rfl | rfl | rfl | rfl
      all_goals
        simp only [Sess.updateElement] at hupd
      all_goals try (
        obtain rfl := Option.some.inj hupd
        cases save <;> exact ⟨_, rfl⟩)
      cases opts with
      | none => simp at hupd
      | some txt =>
        obtain rfl := Option.some.inj hupd
        cases save <;> exact ⟨_, rfl⟩
    rw [hheap]
    exact Sess.getSh_append_of_lt st.heap ext r' hr'

/-- A pencil gesture whose target (ref 1) is not in the stored snapshot
`[0]`. -/
noncomputable def stPen3 : Sess.State :=
  { Sess.initialState with
    heap := [samplePencil 0 1, samplePencil 1 2], shapes := [1],
    history := [[0]], historyIndex := 0,
    tool := Tools.pencil, action := Action.drawing }

noncomputable def stPen3' : Sess.State :=
  (Sess.updateElement stPen3 (fun _ => 0) 0 1 1 3 4 Tools.pencil Option.none
    false).getD Sess.initialState

/-- A rectangle update on a store whose snapshot holds ref 0. -/
noncomputable def stRect3 : Sess.State :=
  { Sess.initialState with
    heap := [sampleRect 0 0 0 5 5 1], shapes := [0],
    history := [[0]], historyIndex := 0,
    tool := Tools.rectangle, action := Action.drawing }

noncomputable def stRect3' : Sess.State :=
  (Sess.updateElement stRect3 (fun _ => 0) 0 1 1 3 4 Tools.rectangle
    Option.none false).getD Sess.initialState

/-- Witness for `snapshots_shallow_characterization` at concrete stores. -/
theorem snapshots_shallow_witness :
    ((Sess.setShapesR Sess.initialState [] true).history
      = (pushHistory Sess.initialState.history Sess.initialState.historyIndex
          []).1) ∧
    ((Sess.undoR Sess.initialState).history = Sess.initialState.history) ∧
    (Sess.updateElement stPen3 (fun _ => 0) 0 1 1 3 4 Tools.pencil Option.none
        false = some stPen3' ∧
      stPen3.shapes[(0 : ℤ).toNat]? = some 1 ∧
      ([0] : List Sess.Ref) ∈ stPen3.history ∧
      ¬ (1 : Sess.Ref) ∈ ([0] : List Sess.Ref) ∧
      ([0] : List Sess.Ref).map (Sess.getSh stPen3'.heap)
        = ([0] : List Sess.Ref).map (Sess.getSh stPen3.heap)) ∧
    (Sess.updateElement stRect3 (fun _ => 0) 0 1 1 3 4 Tools.rectangle
        Option.none false = some stRect3' ∧
      (0 : Sess.Ref) < stRect3.heap.length ∧
      Sess.getSh stRect3'.heap 0 = Sess.getSh stRect3.heap 0) :=
  ⟨(snapshots_shallow_characterization.1 Sess.initialState []).1,
   (snapshots_shallow_characterization.2.1 Sess.initialState).1,
   ⟨rfl, rfl, List.mem_singleton.mpr rfl, by decide,
    snapshots_shallow_characterization.2.2.1 stPen3 (fun _ => 0) 0 1 1 3 4
      Option.none false stPen3' 1 rfl rfl [0] (List.mem_singleton.mpr rfl)
      (by decide)⟩,
   ⟨rfl, by decide,
    snapshots_shallow_characterization.2.2.2 stRect3 (fun _ => 0) 0 1 1 3 4
      Tools.rectangle Option.none false stRect3'
      (Or.inr (Or.inl rfl)) rfl 0 (by decide)⟩⟩

end OpenDraw
